import Mathlib

/-!
Verification development for the Dyssol model-manager slice
(`src/SimulatorCore/ModelsManager.cpp`) and the unit-parameter registry
(`src/ModelsAPI/UnitParameters.h`).

Shallow embedding conventions:
* `std::wstring` / `std::string` are `String`;
* native library handles (`DYSSOL_LIBRARY_INSTANCE`) and instance pointers
  (`CBaseUnit*`, `CExternalSolver*`) are `Nat` identifiers, a C++ null
  pointer argument is `Option.none`;
* `double` is `ℚ` (exact arithmetic standing in for IEEE doubles);
* the OS loader, the file system and the plugin code behind the ABI
  boundary (all external collaborators per the spec) are explicit
  environment records of pure functions;
* `std::sort` (used by `UpdateAvailableModels`) is modelled by its
  C++-standard contract only: the output is a permutation of the input
  that is sorted by the comparator.  The relative order of elements that
  compare equal is NOT specified by `std::sort`, so the post-state of
  `UpdateAvailableModels` is a relation (`UpdateOutcome`), not a function.
-/

namespace Dyssol

/-- Directory entry of the manager (`SModelDir` from `ModelsManager.h`,
modelled from the spec's data model since the header is not in `src/`):
path, generated unique key, `active` flag, `checked` flag. -/
structure SModelDir where
  path : String
  key : String
  active : Bool
  checked : Bool
deriving DecidableEq, Repr

/-- Unit descriptor (`SUnitDescriptor`); the base fields `uniqueID`,
`fileLocation`, `position`, `dirKey` come from `SModelDescriptor`
(modelled from the spec's Plugin Descriptor record, header not in `src/`). -/
structure SUnitDescriptor where
  uniqueID : String
  name : String
  author : String
  version : String
  isDynamic : Bool
  fileLocation : String
  position : Nat
  dirKey : String
deriving DecidableEq, Repr

/-- Solver descriptor (`SSolverDescriptor`), like `SUnitDescriptor` but
carrying a solver type tag instead of `isDynamic`. -/
structure SSolverDescriptor where
  uniqueID : String
  name : String
  author : String
  version : String
  solverType : Nat
  fileLocation : String
  position : Nat
  dirKey : String
deriving DecidableEq, Repr

/-- Mutable state of `CModelsManager` relevant to directory management and
descriptor caching: `m_dirsList`, `m_availableUnits`, `m_availableSolvers`. -/
structure ManagerState where
  dirsList : List SModelDir
  availableUnits : List SUnitDescriptor
  availableSolvers : List SSolverDescriptor
deriving DecidableEq, Repr

/-- `CModelsManager::AllDirsKeys` (ModelsManager.cpp:192-198). -/
def allDirsKeys (dirs : List SModelDir) : List String :=
  dirs.map (fun d => d.key)

/-- The `IsToDelete` lambda of `UpdateAvailableModels`
(ModelsManager.cpp:203-209): a descriptor with directory key `k` is to be
deleted iff no directory in the list is active and has key `k`. -/
def isToDelete (dirs : List SModelDir) (k : String) : Bool :=
  !(dirs.any (fun d => d.active && d.key == k))

/-- `VectorDelete` (DyssolUtilities, external collaborator): removes from
the vector every element satisfying the predicate. -/
def vectorDelete {α : Type} (p : α → Bool) (l : List α) : List α :=
  l.filter (fun x => !(p x))

/-- Environment for a directory scan: for each directory path, the pair of
unit- and solver-descriptor lists that `GetModelsList`
(ModelsManager.cpp:245-257) produces for it on a normally-completing scan
(the absolute/relative path fallback and the file system are external
collaborators folded into this function). -/
def ScanEnv : Type := String → List SUnitDescriptor × List SSolverDescriptor

/-- The scan loop of `UpdateAvailableModels` (ModelsManager.cpp:214-229):
each directory that is active and not yet checked contributes the models
of `GetModelsList`, each tagged with the directory's key, and the
directory is marked checked.  Returns the updated directory list and the
newly found unit and solver descriptors, in directory order. -/
def scanPhase (env : ScanEnv) : List SModelDir →
    List SModelDir × List SUnitDescriptor × List SSolverDescriptor
  | [] => ([], [], [])
  | d :: ds =>
    let tail := scanPhase env ds
    if d.active && !d.checked then
      let m := env d.path
      ({ d with checked := true } :: tail.1,
        m.1.map (fun u => { u with dirKey := d.key }) ++ tail.2.1,
        m.2.map (fun s => { s with dirKey := d.key }) ++ tail.2.2)
    else
      (d :: tail.1, tail.2.1, tail.2.2)

/-- One assignment of the position-recompute loop
(ModelsManager.cpp:234-236): if the descriptor's directory key equals the
key of the directory at index `i`, its position becomes `i`. -/
def setPosOneU (d : SModelDir) (i : Nat) (u : SUnitDescriptor) : SUnitDescriptor :=
  if u.dirKey = d.key then { u with position := i } else u

/-- Solver version of `setPosOneU` (ModelsManager.cpp:237-239). -/
def setPosOneS (d : SModelDir) (i : Nat) (s : SSolverDescriptor) : SSolverDescriptor :=
  if s.dirKey = d.key then { s with position := i } else s

/-- The outer loop of the position recompute (ModelsManager.cpp:232-240),
for units: directories are visited in order with their index `i`, and each
matching descriptor gets position `i` (a later match overwrites). -/
def setPositionsFromU (i : Nat) : List SModelDir → List SUnitDescriptor → List SUnitDescriptor
  | [], us => us
  | d :: ds, us => setPositionsFromU (i + 1) ds (us.map (setPosOneU d i))

/-- The outer loop of the position recompute for solvers. -/
def setPositionsFromS (i : Nat) : List SModelDir → List SSolverDescriptor → List SSolverDescriptor
  | [], ss => ss
  | d :: ds, ss => setPositionsFromS (i + 1) ds (ss.map (setPosOneS d i))

/-- Position recompute entry point for units. -/
def setPositionsU (dirs : List SModelDir) (us : List SUnitDescriptor) : List SUnitDescriptor :=
  setPositionsFromU 0 dirs us

/-- Position recompute entry point for solvers. -/
def setPositionsS (dirs : List SModelDir) (ss : List SSolverDescriptor) : List SSolverDescriptor :=
  setPositionsFromS 0 dirs ss

/-- Deterministic part of `UpdateAvailableModels`
(ModelsManager.cpp:200-240): drop descriptors of non-active directories,
scan active unchecked directories, recompute positions.  Everything up to,
but not including, the two `std::sort` calls. -/
def updatePre (env : ScanEnv) (s : ManagerState) : ManagerState :=
  let keptU := vectorDelete (fun u => isToDelete s.dirsList u.dirKey) s.availableUnits
  let keptS := vectorDelete (fun v => isToDelete s.dirsList v.dirKey) s.availableSolvers
  let scanned := scanPhase env s.dirsList
  { dirsList := scanned.1
    availableUnits := setPositionsU scanned.1 (keptU ++ scanned.2.1)
    availableSolvers := setPositionsS scanned.1 (keptS ++ scanned.2.2) }

/-- Sortedness by the descriptor comparator used by the `std::sort` calls
(comparison by `position`, ModelsManager.h operator, modelled from the
spec: descriptors are sorted by `position`). -/
def SortedByPosU (l : List SUnitDescriptor) : Prop :=
  l.Chain' (fun a b => a.position ≤ b.position)

/-- Sortedness by position for solver descriptors. -/
def SortedByPosS (l : List SSolverDescriptor) : Prop :=
  l.Chain' (fun a b => a.position ≤ b.position)

/-- Full `UpdateAvailableModels` (ModelsManager.cpp:200-243) as a relation
between the pre-state and the post-state: the deterministic phases
(`updatePre`) followed by the two `std::sort` calls, each modelled by the
C++ contract of `std::sort` (output is a permutation of the input, sorted
by the comparator; tie order unspecified). -/
def UpdateOutcome (env : ScanEnv) (s s' : ManagerState) : Prop :=
  s'.dirsList = (updatePre env s).dirsList ∧
  s'.availableUnits.Perm (updatePre env s).availableUnits ∧
  SortedByPosU s'.availableUnits ∧
  s'.availableSolvers.Perm (updatePre env s).availableSolvers ∧
  SortedByPosS s'.availableSolvers

/-- Flag update of `CModelsManager::SetDirActivity`
(ModelsManager.cpp:60-64): bounds check, then
`checked = active || !_active; active = _active;` on entry `i`.
The subsequent `UpdateAvailableModels()` call is composed separately via
`UpdateOutcome`. -/
def setDirActivityFlags (dirs : List SModelDir) (i : Nat) (a : Bool) : List SModelDir :=
  match dirs.get? i with
  | none => dirs
  | some d => dirs.set i { d with checked := d.active || !a, active := a }

/-- The scan-trigger condition of `UpdateAvailableModels`
(ModelsManager.cpp:215): a directory is (re)scanned iff it is active and
not yet checked. -/
def willRescan (d : SModelDir) : Bool :=
  d.active && !d.checked

/-- `CModelsManager::AddDir` (ModelsManager.cpp:17-24) as a relation on
states (relational because of the `UpdateAvailableModels` call): if the
path is already present, return `false` and change nothing; otherwise
append a new entry (key produced by the external
`StringFunctions::GenerateUniqueString` collaborator, abstracted as
`keyGen`) with `checked = false` and run `UpdateAvailableModels`. -/
def AddDirOutcome (env : ScanEnv) (keyGen : List String → String) (s : ManagerState)
    (path : String) (active : Bool) (r : Bool) (s' : ManagerState) : Prop :=
  if s.dirsList.any (fun d => d.path == path) then
    r = false ∧ s' = s
  else
    r = true ∧
    UpdateOutcome env
      { s with dirsList :=
          s.dirsList ++ [⟨path, keyGen (allDirsKeys s.dirsList), active, false⟩] } s'

/-- Environment for instantiation: the OS loader and the plugin factory
symbols (`LoadDyssolLibrary`, `LoadDyssolLibraryConstructor` and the
factory calls, ModelsManager.cpp:362-378).  `loadLib` maps a file path to
a library handle (`none` = load failure); `getUnitFactory` tells whether
the unit factory symbol (`DYSSOL_CREATE_MODEL_FUN_NAME`) resolves in a
handle; `callUnitFactory` is the factory call (`none` = returns null);
the solver versions are additionally indexed by the descriptor's solver
type (the symbol `CREATE_SOLVER_FUN_NAMES[solverType]`). -/
structure InstEnv where
  loadLib : String → Option Nat
  getUnitFactory : Nat → Bool
  callUnitFactory : Nat → Option Nat
  getSolverFactory : Nat → Nat → Bool
  callSolverFactory : Nat → Nat → Option Nat

/-- Result of `InstantiateUnit`/`InstantiateSolver`: the returned instance
pointer (`none` = null), the updated live (instance, library-handle) map,
and the library handles opened and closed during the call. -/
structure InstResult where
  inst : Option Nat
  loaded : List (Nat × Nat)
  opened : List Nat
  closed : List Nat
deriving DecidableEq, Repr

/-- `CModelsManager::InstantiateUnit` (ModelsManager.cpp:100-128):
walk `m_availableUnits` in order; on a key match load the library
(a load failure makes the whole call return null immediately), resolve
the factory symbol and call it (either failure closes the just-opened
handle and continues with the remaining descriptors); on full success
record `(instance, handle)` in the live map (`m_loadedUnits[pUnit] =
hLibrary`; instance pointers are fresh, so the insert is modelled as a
cons) and return the instance. -/
def instantiateUnit (env : InstEnv) (loaded : List (Nat × Nat)) (key : String) :
    List SUnitDescriptor → InstResult
  | [] => ⟨none, loaded, [], []⟩
  | u :: rest =>
    if u.uniqueID = key then
      match env.loadLib u.fileLocation with
      | none => ⟨none, loaded, [], []⟩
      | some h =>
        if env.getUnitFactory h then
          match env.callUnitFactory h with
          | some p => ⟨some p, (p, h) :: loaded, [h], []⟩
          | none =>
            let r := instantiateUnit env loaded key rest
            ⟨r.inst, r.loaded, h :: r.opened, h :: r.closed⟩
        else
          let r := instantiateUnit env loaded key rest
          ⟨r.inst, r.loaded, h :: r.opened, h :: r.closed⟩
    else instantiateUnit env loaded key rest

/-- `CModelsManager::InstantiateSolver` (ModelsManager.cpp:130-158),
identical control flow to `instantiateUnit` with the factory symbol
selected by the descriptor's solver type. -/
def instantiateSolver (env : InstEnv) (loaded : List (Nat × Nat)) (key : String) :
    List SSolverDescriptor → InstResult
  | [] => ⟨none, loaded, [], []⟩
  | s :: rest =>
    if s.uniqueID = key then
      match env.loadLib s.fileLocation with
      | none => ⟨none, loaded, [], []⟩
      | some h =>
        if env.getSolverFactory h s.solverType then
          match env.callSolverFactory h s.solverType with
          | some p => ⟨some p, (p, h) :: loaded, [h], []⟩
          | none =>
            let r := instantiateSolver env loaded key rest
            ⟨r.inst, r.loaded, h :: r.opened, h :: r.closed⟩
        else
          let r := instantiateSolver env loaded key rest
          ⟨r.inst, r.loaded, h :: r.opened, h :: r.closed⟩
    else instantiateSolver env loaded key rest

/-- How the scan loop rewrites a single directory entry: an active,
unchecked directory is marked checked, any other entry is untouched. -/
def scanDirTransform (d : SModelDir) : SModelDir :=
  if d.active && !d.checked then { d with checked := true } else d

/-- The cumulative effect of the position-recompute loop on a single unit
descriptor (directory `j` of the loop carries index `i + j`). -/
def applyDirsU : Nat → List SModelDir → SUnitDescriptor → SUnitDescriptor
  | _, [], u => u
  | i, d :: ds, u => applyDirsU (i + 1) ds (setPosOneU d i u)

/-- The cumulative effect of the position-recompute loop on a single
solver descriptor. -/
def applyDirsS : Nat → List SModelDir → SSolverDescriptor → SSolverDescriptor
  | _, [], s => s
  | i, d :: ds, s => applyDirsS (i + 1) ds (setPosOneS d i s)

/-- Scan environment of an empty world: every directory scans to no
models. -/
def noScanEnv : ScanEnv := fun _ => ([], [])

/-- Single active, already-checked directory used by the C2 scenario. -/
def c2Dir : SModelDir := ⟨"A", "kA", true, true⟩

/-- First discovered unit of directory `A`. -/
def c2u1 : SUnitDescriptor := ⟨"1", "", "", "", false, "f1", 0, "kA"⟩

/-- Second discovered unit of directory `A`. -/
def c2u2 : SUnitDescriptor := ⟨"2", "", "", "", false, "f2", 0, "kA"⟩

/-- Pre-state of the C2 scenario: one active checked directory owning two
units cached in discovery order. -/
def c2s0 : ManagerState := ⟨[c2Dir], [c2u1, c2u2], []⟩

/-- A legal post-state of `UpdateAvailableModels` on `c2s0` in which the
two same-directory units come out in reversed order. -/
def c2s1 : ManagerState := ⟨[c2Dir], [c2u2, c2u1], []⟩

/-- Post-state of `UpdateAvailableModels` on `c2s0` keeping discovery
order. -/
def c2sSorted : ManagerState := ⟨[c2Dir], [c2u1, c2u2], []⟩

/-- Active, checked directory `A` of the C5 scenario. -/
def c5DirA : SModelDir := ⟨"A", "kA", true, true⟩

/-- Active, checked directory `B` of the C5 scenario. -/
def c5DirB : SModelDir := ⟨"B", "kB", true, true⟩

/-- Directory `A` after deactivation by `SetDirActivity(0, false)`. -/
def c5DirA' : SModelDir := ⟨"A", "kA", false, true⟩

/-- Unit owned by directory `A`. -/
def c5uA : SUnitDescriptor := ⟨"ua", "", "", "", false, "fa", 0, "kA"⟩

/-- Unit owned by directory `B`. -/
def c5uB : SUnitDescriptor := ⟨"ub", "", "", "", false, "fb", 1, "kB"⟩

/-- Solver owned by directory `B`. -/
def c5sB : SSolverDescriptor := ⟨"sb", "", "", "", 1, "fb", 1, "kB"⟩

/-- Pre-state of the C5 scenario. -/
def c5s : ManagerState := ⟨[c5DirA, c5DirB], [c5uA, c5uB], [c5sB]⟩

/-- Post-state after deactivating directory `A` and re-running
`UpdateAvailableModels`: exactly `A`'s unit is gone. -/
def c5sAfter : ManagerState := ⟨[c5DirA', c5DirB], [c5uB], [c5sB]⟩

/-- `B`'s unit after directory `A` is removed: its position is recomputed
to `B`'s new list index 0. -/
def c5uB0 : SUnitDescriptor := ⟨"ub", "", "", "", false, "fb", 0, "kB"⟩

/-- `B`'s solver after directory `A` is removed, at recomputed
position 0. -/
def c5sB0 : SSolverDescriptor := ⟨"sb", "", "", "", 1, "fb", 0, "kB"⟩

/-- Post-state after removing directory `A` (`RemoveDir(0)`) and
re-running `UpdateAvailableModels`: only `B` and its models remain, with
positions recomputed. -/
def c5sRemoved : ManagerState := ⟨[c5DirB], [c5uB0], [c5sB0]⟩

/-- Host compiler/ABI version constant (`COMPILER_VERSION`).  Modelled
from the spec: the constant's definition is outside `src/`; the code only
compares plugin instances' tags against it for exact equality, so its
value is irrelevant. -/
def COMPILER_VERSION : Nat := 100

/-- Constructed plugin instance as seen through the ABI boundary during
probing: its embedded compiler version tag (`m_nCompilerVer`), whether its
descriptor accessor methods throw, and the metadata they return
otherwise. -/
structure PluginInstance where
  compilerVer : Nat
  accessorsThrow : Bool
  uniqueID : String
  name : String
  author : String
  version : String
  isDynamic : Bool
  solverType : Nat
deriving DecidableEq, Repr

/-- Outcome of calling a plugin factory function: it throws (with
`isLogicError` telling whether the exception derives from
`std::logic_error`) or returns a constructed instance. -/
inductive FactoryOutcome where
  | throws (isLogicError : Bool)
  | returns (inst : PluginInstance)
deriving DecidableEq, Repr

/-- What probing one library for a unit can observe: whether the unit
factory symbol (`DYSSOL_CREATE_MODEL_FUN_NAME`) resolves, and the outcome
of calling it. -/
structure UnitProbe where
  hasFactory : Bool
  outcome : FactoryOutcome
deriving DecidableEq, Repr

/-- What probing one library for a solver can observe: for each solver
type index, whether the corresponding factory symbol
(`CREATE_SOLVER_FUN_NAMES[i]`) resolves (`none` = missing) and the outcome
of calling it. -/
structure SolverProbe where
  factories : Nat → Option FactoryOutcome

/-- `SOLVERS_TYPES_NUMBER`.  Modelled from the spec: the constant (one
factory name per supported solver type) is outside `src/`; its exact value
does not matter to the claims. -/
def SOLVERS_TYPES_NUMBER : Nat := 7

/-- `CModelsManager::TryGetUnitDescriptor` (ModelsManager.cpp:275-315).
`Except.error ()` models an exception escaping the function: the `try`
around the factory call catches only `std::logic_error` (line 287), so any
other exception propagates; the `try` around the descriptor accessors
catches everything (line 309) and returns the empty descriptor, modelled
as `none`.  A version-tag mismatch (line 293) also yields the empty
descriptor.  A null factory return is not modelled (the source would
dereference it: undefined behavior).  `StringFunctions::UnifyPath` is an
external collaborator modelled as the identity. -/
def tryGetUnitDescriptor (path : String) (p : UnitProbe) :
    Except Unit (Option SUnitDescriptor) :=
  if !p.hasFactory then .ok none
  else
    match p.outcome with
    | .throws isLogic => if isLogic then .ok none else .error ()
    | .returns inst =>
      if inst.compilerVer ≠ COMPILER_VERSION then .ok none
      else if inst.accessorsThrow then .ok none
      else .ok (some ⟨inst.uniqueID, inst.name, inst.author, inst.version,
        inst.isDynamic, path, 0, ""⟩)

/-- Loop body of `CModelsManager::TryGetSolverDescriptor`
(ModelsManager.cpp:317-360) over the solver-type indices: a missing
symbol, a `std::logic_error` from the factory, a version mismatch, or
throwing accessors (which reset the partially filled descriptor to empty)
`continue` with the next solver type; a non-`std::logic_error` exception
from the factory escapes (the `catch` at line 335 is for
`std::logic_error` only); the first fully successful type sets `bFound`
and stops; if no type succeeds the default-constructed (empty) descriptor
is returned, modelled as `none`. -/
def tryGetSolverLoop (path : String) (p : SolverProbe) :
    List Nat → Except Unit (Option SSolverDescriptor)
  | [] => .ok none
  | i :: rest =>
    match p.factories i with
    | none => tryGetSolverLoop path p rest
    | some (.throws isLogic) =>
      if isLogic then tryGetSolverLoop path p rest else .error ()
    | some (.returns inst) =>
      if inst.compilerVer ≠ COMPILER_VERSION then tryGetSolverLoop path p rest
      else if inst.accessorsThrow then tryGetSolverLoop path p rest
      else .ok (some ⟨inst.uniqueID, inst.name, inst.author, inst.version,
        inst.solverType, path, 0, ""⟩)

/-- `CModelsManager::TryGetSolverDescriptor`: the loop runs over solver
types `1 .. SOLVERS_TYPES_NUMBER` (ModelsManager.cpp:324). -/
def tryGetSolverDescriptor (path : String) (p : SolverProbe) :
    Except Unit (Option SSolverDescriptor) :=
  tryGetSolverLoop path p (List.range' 1 SOLVERS_TYPES_NUMBER)

/-- Environment of a directory scan at the probing level: the OS loader
and, per library handle, what the unit and solver probes observe. -/
structure ProbeEnv where
  loadLib : String → Option Nat
  unitProbe : Nat → UnitProbe
  solverProbe : Nat → SolverProbe

/-- `CModelsManager::GetAllModelsInDir` (ModelsManager.cpp:259-273) over
an explicit list of candidate library files (`FileSystem::FilesList` is an
external collaborator): each file that loads is probed for a unit and, if
that yields no descriptor, for a solver; the probing handle is closed
either way; an exception escaping a probe escapes the scan. -/
def getAllModelsInDirE (env : ProbeEnv) :
    List String → Except Unit (List SUnitDescriptor × List SSolverDescriptor)
  | [] => .ok ([], [])
  | f :: rest =>
    match env.loadLib f with
    | none => getAllModelsInDirE env rest
    | some lib =>
      match tryGetUnitDescriptor f (env.unitProbe lib) with
      | .error e => .error e
      | .ok (some u) =>
        match getAllModelsInDirE env rest with
        | .error e => .error e
        | .ok (us, ss) => .ok (u :: us, ss)
      | .ok none =>
        match tryGetSolverDescriptor f (env.solverProbe lib) with
        | .error e => .error e
        | .ok (some sd) =>
          match getAllModelsInDirE env rest with
          | .error e => .error e
          | .ok (us, ss) => .ok (us, sd :: ss)
        | .ok none => getAllModelsInDirE env rest

/-- Probe environment for the C3 counterexample: every library loads (as
handle 1) and its unit factory throws an exception that is not a
`std::logic_error`. -/
def c3Env : ProbeEnv :=
  ⟨fun _ => some 1, fun _ => ⟨true, .throws false⟩, fun _ => ⟨fun _ => none⟩⟩

/-- Benign probe environment for the C3 witness: libraries load but
expose no factory symbols. -/
def c3OkEnv : ProbeEnv :=
  ⟨fun _ => some 1, fun _ => ⟨false, .throws true⟩, fun _ => ⟨fun _ => none⟩⟩

/-- Plugin instance whose accessors throw. -/
def c3AccInst : PluginInstance := ⟨COMPILER_VERSION, true, "", "", "", "", false, 1⟩

/-- Plugin instance with a mismatched compiler/ABI version tag. -/
def c7BadInst : PluginInstance := ⟨COMPILER_VERSION + 1, false, "u", "n", "a", "v", false, 1⟩

/-- Probe environment whose only plugin constructs version-mismatched
instances. -/
def c7Env : ProbeEnv :=
  ⟨fun _ => some 1, fun _ => ⟨true, .returns c7BadInst⟩, fun _ => ⟨fun _ => none⟩⟩

/-- Modelled from the spec: `CTDUnitParameter::GetValue(time)` (declared
at UnitParameters.h:113; its implementation and the underlying
`CDependentValues` live outside `src/`).  The parameter's points are an
ordered mapping time → value (unique increasing times), modelled as a list
of (time, value) pairs with strictly increasing times; `double` is
modelled as `ℚ`.  Per the spec: no points → 0.0; at or before the first
point → first value; at or after the last → last value; otherwise linear
interpolation between the two bracketing points. -/
def tdGetValue : List (ℚ × ℚ) → ℚ → ℚ
  | [], _ => 0
  | [(_, v)], _ => v
  | (t0, v0) :: (t1, v1) :: rest, t =>
    if t ≤ t0 then v0
    else if t ≤ t1 then v0 + (v1 - v0) * (t - t0) / (t1 - t0)
    else tdGetValue ((t1, v1) :: rest) t

/-- Modelled from the spec: the eight unit-parameter kinds of
`UnitParameters.h` (the variants' payloads follow the class fields
declared there; the member-function implementations live outside `src/`).
`double` is `ℚ`, `size_t` item ids and selections are `Nat`,
`ESolverTypes` is a `Nat` tag.  `group` is `combo` specialized for
activation (UnitParameters.h:225-232). -/
inductive UParam where
  | const (name units descr : String) (vmin vmax value : ℚ)
  | td (name units descr : String) (vmin vmax : ℚ) (points : List (ℚ × ℚ))
  | str (name descr value : String)
  | checkbox (name descr : String) (checked : Bool)
  | solver (name descr key : String) (stype : Nat)
  | combo (name descr : String) (items : List (Nat × String)) (selected : Nat)
  | group (name descr : String) (items : List (Nat × String)) (selected : Nat)
  | compound (name descr key : String)
deriving DecidableEq, Repr

/-- Modelled from the spec: the hierarchical keyed store record one
parameter writes under its path (`SaveToFile` of each kind, implementation
outside `src/`): a per-kind format version, the numeric kind tag (the
`EUnitParameter` values of UnitParameters.h:9-20), and flat typed fields;
list-valued data (time points, combo items) is stored as parallel
lists. -/
structure H5ParamEntry where
  version : Nat
  kind : Nat
  name : String
  units : String
  descr : String
  nums : List ℚ
  times : List ℚ
  vals : List ℚ
  itemIds : List Nat
  itemNames : List String
  strs : List String
  flag : Bool
  sel : Nat
deriving DecidableEq, Repr

/-- Store entry with every field defaulted. -/
def emptyEntry : H5ParamEntry :=
  ⟨0, 0, "", "", "", [], [], [], [], [], [], false, 0⟩

/-- Per-kind `SaveToFile`: serialize one parameter to its store entry,
tagged by kind (`EUnitParameter` numeric values) and per-kind version. -/
def encodeParam : UParam → H5ParamEntry
  | .td n u d mn mx pts =>
    { emptyEntry with
      version := 1
      kind := 1
      name := n
      units := u
      descr := d
      nums := [mn, mx]
      times := pts.map Prod.fst
      vals := pts.map Prod.snd }
  | .const n u d mn mx v =>
    { emptyEntry with
      version := 1
      kind := 2
      name := n
      units := u
      descr := d
      nums := [mn, mx, v] }
  | .str n d v =>
    { emptyEntry with
      version := 1
      kind := 3
      name := n
      descr := d
      strs := [v] }
  | .checkbox n d b =>
    { emptyEntry with
      version := 1
      kind := 4
      name := n
      descr := d
      flag := b }
  | .solver n d key stype =>
    { emptyEntry with
      version := 1
      kind := 5
      name := n
      descr := d
      strs := [key]
      sel := stype }
  | .combo n d items selected =>
    { emptyEntry with
      version := 1
      kind := 6
      name := n
      descr := d
      itemIds := items.map Prod.fst
      itemNames := items.map Prod.snd
      sel := selected }
  | .group n d items selected =>
    { emptyEntry with
      version := 1
      kind := 7
      name := n
      descr := d
      itemIds := items.map Prod.fst
      itemNames := items.map Prod.snd
      sel := selected }
  | .compound n d key =>
    { emptyEntry with
      version := 1
      kind := 8
      name := n
      descr := d
      strs := [key] }

/-- Per-kind `LoadFromFile`: rebuild one parameter from its store entry by
kind tag; missing fields degrade to defaults (the spec's
forward-compatible contract). -/
def decodeParam (e : H5ParamEntry) : UParam :=
  match e.kind with
  | 1 => .td e.name e.units e.descr (e.nums.getD 0 0) (e.nums.getD 1 0)
      (e.times.zip e.vals)
  | 2 => .const e.name e.units e.descr (e.nums.getD 0 0) (e.nums.getD 1 0)
      (e.nums.getD 2 0)
  | 3 => .str e.name e.descr (e.strs.getD 0 "")
  | 4 => .checkbox e.name e.descr e.flag
  | 5 => .solver e.name e.descr (e.strs.getD 0 "") e.sel
  | 6 => .combo e.name e.descr (e.itemIds.zip e.itemNames) e.sel
  | 7 => .group e.name e.descr (e.itemIds.zip e.itemNames) e.sel
  | 8 => .compound e.name e.descr (e.strs.getD 0 "")
  | _ => .str "" "" ""

/-- Modelled from the spec: `CUnitParametersManager`
(UnitParameters.h:261-268) — the ordered owned parameter sequence and the
group map, the latter flattened to its persisted form of
(parameter-index, block-index, group-id) triples. -/
structure CUnitParametersManager where
  parameters : List UParam
  groups : List (Nat × Nat × Nat)
deriving DecidableEq, Repr

/-- The hierarchical store subtree written by
`CUnitParametersManager::SaveToFile` (UnitParameters.h:428): the manager's
own format version, one entry per parameter in index order, and the group
map triples. -/
structure H5ManagerGroup where
  version : Nat
  paramEntries : List H5ParamEntry
  groupTriples : List (Nat × Nat × Nat)
deriving DecidableEq, Repr

/-- Modelled from the spec: `CUnitParametersManager::SaveToFile`
(declared at UnitParameters.h:428, implementation outside `src/`). -/
def saveToFile (m : CUnitParametersManager) : H5ManagerGroup :=
  ⟨1, m.parameters.map encodeParam, m.groups⟩

/-- Modelled from the spec: `CUnitParametersManager::LoadFromFile`
(declared at UnitParameters.h:430, implementation outside `src/`):
reconstructs every parameter from its tagged entry and the group map from
the persisted triples. -/
def loadFromFile (g : H5ManagerGroup) : CUnitParametersManager :=
  ⟨g.paramEntries.map decodeParam, g.groupTriples⟩

/-- `CUnitParametersManager::ParametersNumber` (UnitParameters.h:280). -/
def ParametersNumber (m : CUnitParametersManager) : Nat :=
  m.parameters.length

/-- Selected item of the Group parameter at index `b`, if the parameter at
`b` exists and is a Group parameter. -/
def getGroupValue (m : CUnitParametersManager) (b : Nat) : Option Nat :=
  match m.parameters.get? b with
  | some (.group _ _ _ selected) => some selected
  | _ => none

/-- `CUnitParametersManager::IsParameterActive` (UnitParameters.h:423),
modelled from the spec (§3): a parameter with no group-map entries is
always active; otherwise it is active iff for some registered
(block, group) pair the Group parameter at that block currently selects
that group id. -/
def IsParameterActive (m : CUnitParametersManager) (i : Nat) : Bool :=
  let es := m.groups.filter (fun e => e.1 == i)
  es.isEmpty || es.any (fun e => getGroupValue m e.2.1 == some e.2.2)

/-- Instantiation environment for the C1 counterexample: the library at
path `fA` fails to load, the library at `fB` loads as handle 7, resolves
its factory, and constructs instance 42 (unit) / 43 (solver). -/
def c1Env : InstEnv :=
  ⟨fun p => if p = "fB" then some 7 else none,
   fun _ => true, fun _ => some 42, fun _ _ => true, fun _ _ => some 43⟩

/-- Instantiation environment whose libraries all load (as handle 5) but
expose no factory symbols. -/
def c1EnvF : InstEnv :=
  ⟨fun _ => some 5, fun _ => false, fun _ => none, fun _ _ => false, fun _ _ => none⟩

/-- Unit descriptor with key `k` at path `fA`. -/
def c1UnitA : SUnitDescriptor := ⟨"k", "", "", "", false, "fA", 0, ""⟩

/-- Unit descriptor with key `k` at path `fB`. -/
def c1UnitB : SUnitDescriptor := ⟨"k", "", "", "", false, "fB", 0, ""⟩

/-- Solver descriptor with key `k` at path `fA`. -/
def c1SolvA : SSolverDescriptor := ⟨"k", "", "", "", 1, "fA", 0, ""⟩

/-- Solver descriptor with key `k` at path `fB`. -/
def c1SolvB : SSolverDescriptor := ⟨"k", "", "", "", 1, "fB", 0, ""⟩

/-- Observable ordered effects of a `FreeUnit`/`FreeSolver` call:
destruction of the instance (`delete _unit`) and unloading of the backing
library (`CloseDyssolLibrary`). -/
inductive FreeAction where
  | destroy (p : Nat)
  | unload (h : Nat)
deriving DecidableEq, Repr

/-- `m_loadedUnits.find(_unit)` / `m_loadedUnits[_unit]`: lookup of the
library handle mapped to an instance pointer.  The `std::map` is modelled
as an association list whose keys are unique (`Nodup` on the first
components wherever that matters). -/
def lookupLoaded (loaded : List (Nat × Nat)) (p : Nat) : Option Nat :=
  (loaded.find? (fun e => e.1 == p)).map (fun e => e.2)

/-- `m_loadedUnits.erase(_unit)`: removes the (unique) entry with that
key. -/
def eraseLoaded (loaded : List (Nat × Nat)) (p : Nat) : List (Nat × Nat) :=
  loaded.eraseP (fun e => e.1 == p)

/-- `CModelsManager::FreeUnit` (ModelsManager.cpp:160-174): null check,
membership check, copy the handle, erase the mapping, delete the
instance, close the library — the returned action list records the
instance destruction and the library unload in program order. -/
def freeUnit (loaded : List (Nat × Nat)) (p : Option Nat) :
    List (Nat × Nat) × List FreeAction :=
  match p with
  | none => (loaded, [])
  | some q =>
    match lookupLoaded loaded q with
    | none => (loaded, [])
    | some h => (eraseLoaded loaded q, [FreeAction.destroy q, FreeAction.unload h])

/-- `CModelsManager::FreeSolver` (ModelsManager.cpp:176-190), identical to
`FreeUnit` but acting on `m_loadedSolvers`. -/
def freeSolver (loaded : List (Nat × Nat)) (p : Option Nat) :
    List (Nat × Nat) × List FreeAction :=
  match p with
  | none => (loaded, [])
  | some q =>
    match lookupLoaded loaded q with
    | none => (loaded, [])
    | some h => (eraseLoaded loaded q, [FreeAction.destroy q, FreeAction.unload h])

/-- Handle accounting for `instantiateUnit`: a call that returns null
closed every handle it opened and left the live map unchanged; a call
that returns an instance closed all opened handles except the one it
recorded with the new instance. -/
theorem instantiateUnit_handles (env : InstEnv) (loaded : List (Nat × Nat))
    (key : String) (units : List SUnitDescriptor) :
    ((instantiateUnit env loaded key units).inst = none →
      (instantiateUnit env loaded key units).closed =
        (instantiateUnit env loaded key units).opened ∧
      (instantiateUnit env loaded key units).loaded = loaded) ∧
    (∀ p, (instantiateUnit env loaded key units).inst = some p →
      ∃ hh, (instantiateUnit env loaded key units).opened =
          (instantiateUnit env loaded key units).closed ++ [hh] ∧
        (instantiateUnit env loaded key units).loaded = (p, hh) :: loaded) := by
  induction units with
  | nil => exact ⟨fun _ => ⟨rfl, rfl⟩, fun p hp => by simp [instantiateUnit] at hp⟩
  | cons u rest ih =>
    by_cases hk : u.uniqueID = key
    · cases hL : env.loadLib u.fileLocation with
      | none =>
        simp only [instantiateUnit, if_pos hk, hL]
        exact ⟨fun _ => by constructor <;> simp, fun p hp => by simp at hp⟩
      | some h =>
        by_cases hF : env.getUnitFactory h
        · cases hC : env.callUnitFactory h with
          | some p =>
            simp only [instantiateUnit, if_pos hk, hL, if_pos hF, hC]
            refine ⟨fun hcontra => by simp at hcontra, fun p' hp' => ?_⟩
            simp only [Option.some.injEq] at hp'
            exact ⟨h, rfl, by rw [hp']⟩
          | none =>
            simp only [instantiateUnit, if_pos hk, hL, if_pos hF, hC]
            refine ⟨fun hn => ?_, fun p' hp' => ?_⟩
            · obtain ⟨h1, h2⟩ := ih.1 hn
              exact ⟨by rw [h1], h2⟩
            · obtain ⟨hh, h1, h2⟩ := ih.2 p' hp'
              exact ⟨hh, by rw [h1, List.cons_append], h2⟩
        · simp only [instantiateUnit, if_pos hk, hL, if_neg hF]
          refine ⟨fun hn => ?_, fun p' hp' => ?_⟩
          · obtain ⟨h1, h2⟩ := ih.1 hn
            exact ⟨by rw [h1], h2⟩
          · obtain ⟨hh, h1, h2⟩ := ih.2 p' hp'
            exact ⟨hh, by rw [h1, List.cons_append], h2⟩
    · simpa only [instantiateUnit, if_neg hk] using ih

/-- Handle accounting for `instantiateSolver`, mirroring
`instantiateUnit_handles`. -/
theorem instantiateSolver_handles (env : InstEnv) (loaded : List (Nat × Nat))
    (key : String) (solvers : List SSolverDescriptor) :
    ((instantiateSolver env loaded key solvers).inst = none →
      (instantiateSolver env loaded key solvers).closed =
        (instantiateSolver env loaded key solvers).opened ∧
      (instantiateSolver env loaded key solvers).loaded = loaded) ∧
    (∀ p, (instantiateSolver env loaded key solvers).inst = some p →
      ∃ hh, (instantiateSolver env loaded key solvers).opened =
          (instantiateSolver env loaded key solvers).closed ++ [hh] ∧
        (instantiateSolver env loaded key solvers).loaded = (p, hh) :: loaded) := by
  induction solvers with
  | nil => exact ⟨fun _ => ⟨rfl, rfl⟩, fun p hp => by simp [instantiateSolver] at hp⟩
  | cons s rest ih =>
    by_cases hk : s.uniqueID = key
    · cases hL : env.loadLib s.fileLocation with
      | none =>
        simp only [instantiateSolver, if_pos hk, hL]
        exact ⟨fun _ => by constructor <;> simp, fun p hp => by simp at hp⟩
      | some h =>
        by_cases hF : env.getSolverFactory h s.solverType
        · cases hC : env.callSolverFactory h s.solverType with
          | some p =>
            simp only [instantiateSolver, if_pos hk, hL, if_pos hF, hC]
            refine ⟨fun hcontra => by simp at hcontra, fun p' hp' => ?_⟩
            simp only [Option.some.injEq] at hp'
            exact ⟨h, rfl, by rw [hp']⟩
          | none =>
            simp only [instantiateSolver, if_pos hk, hL, if_pos hF, hC]
            refine ⟨fun hn => ?_, fun p' hp' => ?_⟩
            · obtain ⟨h1, h2⟩ := ih.1 hn
              exact ⟨by rw [h1], h2⟩
            · obtain ⟨hh, h1, h2⟩ := ih.2 p' hp'
              exact ⟨hh, by rw [h1, List.cons_append], h2⟩
        · simp only [instantiateSolver, if_pos hk, hL, if_neg hF]
          refine ⟨fun hn => ?_, fun p' hp' => ?_⟩
          · obtain ⟨h1, h2⟩ := ih.1 hn
            exact ⟨by rw [h1], h2⟩
          · obtain ⟨hh, h1, h2⟩ := ih.2 p' hp'
            exact ⟨hh, by rw [h1, List.cons_append], h2⟩
    · simpa only [instantiateSolver, if_neg hk] using ih

/-- Unknown key: no descriptor matches, so the walk falls through to the
final `return nullptr` with no side effects. -/
theorem instantiateUnit_unknown_key (env : InstEnv) (loaded : List (Nat × Nat))
    (key : String) (units : List SUnitDescriptor)
    (h : ∀ u ∈ units, u.uniqueID ≠ key) :
    instantiateUnit env loaded key units = ⟨none, loaded, [], []⟩ := by
  induction units with
  | nil => rfl
  | cons u rest ih =>
    have hu : u.uniqueID ≠ key := h u (List.mem_cons_self u rest)
    rw [show instantiateUnit env loaded key (u :: rest) =
        instantiateUnit env loaded key rest from by
      simp only [instantiateUnit, if_neg hu]]
    exact ih fun v hv => h v (List.mem_cons_of_mem u hv)

/-- Unknown-key lemma for solvers. -/
theorem instantiateSolver_unknown_key (env : InstEnv) (loaded : List (Nat × Nat))
    (key : String) (solvers : List SSolverDescriptor)
    (h : ∀ s ∈ solvers, s.uniqueID ≠ key) :
    instantiateSolver env loaded key solvers = ⟨none, loaded, [], []⟩ := by
  induction solvers with
  | nil => rfl
  | cons s rest ih =>
    have hs : s.uniqueID ≠ key := h s (List.mem_cons_self s rest)
    rw [show instantiateSolver env loaded key (s :: rest) =
        instantiateSolver env loaded key rest from by
      simp only [instantiateSolver, if_neg hs]]
    exact ih fun v hv => h v (List.mem_cons_of_mem s hv)

theorem scanDirTransform_key (d : SModelDir) : (scanDirTransform d).key = d.key := by
  unfold scanDirTransform; split <;> rfl

theorem scanDirTransform_active (d : SModelDir) :
    (scanDirTransform d).active = d.active := by
  unfold scanDirTransform; split <;> rfl

/-- The directory list after the scan loop is the pointwise transform of
the input list. -/
theorem scanPhase_fst (env : ScanEnv) (ds : List SModelDir) :
    (scanPhase env ds).1 = ds.map scanDirTransform := by
  induction ds with
  | nil => rfl
  | cons d ds ih =>
    simp only [scanPhase, List.map_cons]
    by_cases hc : d.active && !d.checked
    · rw [if_pos hc]
      simp only [scanDirTransform, if_pos hc, ih]
    · rw [if_neg hc]
      simp only [scanDirTransform, if_neg hc, ih]

/-- Directory keys are unchanged by the scan loop. -/
theorem allDirsKeys_scanPhase (env : ScanEnv) (ds : List SModelDir) :
    allDirsKeys (scanPhase env ds).1 = allDirsKeys ds := by
  rw [scanPhase_fst]
  unfold allDirsKeys
  rw [List.map_map]
  exact List.map_congr_left fun d _ => scanDirTransform_key d

/-- If no directory is due for a re-scan, the scan loop is the identity
and produces no new descriptors. -/
theorem scanPhase_all_checked (env : ScanEnv) (ds : List SModelDir)
    (h : ∀ d ∈ ds, willRescan d = false) :
    scanPhase env ds = (ds, [], []) := by
  induction ds with
  | nil => rfl
  | cons d ds ih =>
    have hd : (d.active && !d.checked) = false := h d (List.mem_cons_self d ds)
    simp only [scanPhase, ih fun e he => h e (List.mem_cons_of_mem d he), hd,
      Bool.false_eq_true, if_false]

/-- Every unit descriptor produced by the scan loop is tagged with the key
of one of the scanned directories, which was active and unchecked. -/
theorem scanPhase_units_mem (env : ScanEnv) (ds : List SModelDir)
    (u : SUnitDescriptor) (h : u ∈ (scanPhase env ds).2.1) :
    ∃ d ∈ ds, d.active = true ∧ d.checked = false ∧ u.dirKey = d.key := by
  induction ds with
  | nil => simp [scanPhase] at h
  | cons d ds ih =>
    by_cases hc : (d.active && !d.checked) = true
    · simp only [scanPhase, hc, if_true] at h
      rcases List.mem_append.mp h with hnew | htail
      · obtain ⟨v, -, hv⟩ := List.mem_map.mp hnew
        obtain ⟨ha, hch⟩ := Bool.and_eq_true_iff.mp hc
        exact ⟨d, List.mem_cons_self d ds, ha, by
          cases hcv : d.checked <;> simp [hcv] at hch ⊢, by rw [← hv]⟩
      · obtain ⟨e, he, h1, h2, h3⟩ := ih htail
        exact ⟨e, List.mem_cons_of_mem d he, h1, h2, h3⟩
    · simp only [scanPhase, hc, Bool.false_eq_true, if_false] at h
      obtain ⟨e, he, h1, h2, h3⟩ := ih h
      exact ⟨e, List.mem_cons_of_mem d he, h1, h2, h3⟩

/-- Every solver descriptor produced by the scan loop is tagged with the
key of one of the scanned directories, which was active and unchecked. -/
theorem scanPhase_solvers_mem (env : ScanEnv) (ds : List SModelDir)
    (v : SSolverDescriptor) (h : v ∈ (scanPhase env ds).2.2) :
    ∃ d ∈ ds, d.active = true ∧ d.checked = false ∧ v.dirKey = d.key := by
  induction ds with
  | nil => simp [scanPhase] at h
  | cons d ds ih =>
    by_cases hc : (d.active && !d.checked) = true
    · simp only [scanPhase, hc, if_true] at h
      rcases List.mem_append.mp h with hnew | htail
      · obtain ⟨w, -, hw⟩ := List.mem_map.mp hnew
        obtain ⟨ha, hch⟩ := Bool.and_eq_true_iff.mp hc
        exact ⟨d, List.mem_cons_self d ds, ha, by
          cases hcv : d.checked <;> simp [hcv] at hch ⊢, by rw [← hw]⟩
      · obtain ⟨e, he, h1, h2, h3⟩ := ih htail
        exact ⟨e, List.mem_cons_of_mem d he, h1, h2, h3⟩
    · simp only [scanPhase, hc, Bool.false_eq_true, if_false] at h
      obtain ⟨e, he, h1, h2, h3⟩ := ih h
      exact ⟨e, List.mem_cons_of_mem d he, h1, h2, h3⟩

theorem setPositionsFromU_eq_map (ds : List SModelDir) :
    ∀ (i : Nat) (us : List SUnitDescriptor),
      setPositionsFromU i ds us = us.map (applyDirsU i ds) := by
  induction ds with
  | nil => intro i us; simp [setPositionsFromU, applyDirsU]
  | cons d ds ih =>
    intro i us
    rw [show setPositionsFromU i (d :: ds) us =
        setPositionsFromU (i + 1) ds (us.map (setPosOneU d i)) from rfl,
      ih, List.map_map]
    rfl

theorem setPositionsFromS_eq_map (ds : List SModelDir) :
    ∀ (i : Nat) (ss : List SSolverDescriptor),
      setPositionsFromS i ds ss = ss.map (applyDirsS i ds) := by
  induction ds with
  | nil => intro i ss; simp [setPositionsFromS, applyDirsS]
  | cons d ds ih =>
    intro i ss
    rw [show setPositionsFromS i (d :: ds) ss =
        setPositionsFromS (i + 1) ds (ss.map (setPosOneS d i)) from rfl,
      ih, List.map_map]
    rfl

theorem setPosOneU_pos_override (d : SModelDir) (i p : Nat) (u : SUnitDescriptor) :
    { setPosOneU d i u with position := p } = { u with position := p } := by
  unfold setPosOneU; split <;> rfl

theorem setPosOneS_pos_override (d : SModelDir) (i p : Nat) (s : SSolverDescriptor) :
    { setPosOneS d i s with position := p } = { s with position := p } := by
  unfold setPosOneS; split <;> rfl

theorem setPosOneU_dirKey (d : SModelDir) (i : Nat) (u : SUnitDescriptor) :
    (setPosOneU d i u).dirKey = u.dirKey := by
  unfold setPosOneU; split <;> rfl

theorem setPosOneS_dirKey (d : SModelDir) (i : Nat) (s : SSolverDescriptor) :
    (setPosOneS d i s).dirKey = s.dirKey := by
  unfold setPosOneS; split <;> rfl

/-- The position-recompute loop changes nothing but the position field. -/
theorem applyDirsU_shape (ds : List SModelDir) :
    ∀ (i : Nat) (u : SUnitDescriptor), ∃ p, applyDirsU i ds u = { u with position := p } := by
  induction ds with
  | nil => intro i u; exact ⟨u.position, rfl⟩
  | cons d ds ih =>
    intro i u
    obtain ⟨p, hp⟩ := ih (i + 1) (setPosOneU d i u)
    exact ⟨p, by rw [show applyDirsU i (d :: ds) u =
      applyDirsU (i + 1) ds (setPosOneU d i u) from rfl, hp, setPosOneU_pos_override]⟩

/-- The position-recompute loop changes nothing but the position field. -/
theorem applyDirsS_shape (ds : List SModelDir) :
    ∀ (i : Nat) (s : SSolverDescriptor), ∃ p, applyDirsS i ds s = { s with position := p } := by
  induction ds with
  | nil => intro i s; exact ⟨s.position, rfl⟩
  | cons d ds ih =>
    intro i s
    obtain ⟨p, hp⟩ := ih (i + 1) (setPosOneS d i s)
    exact ⟨p, by rw [show applyDirsS i (d :: ds) s =
      applyDirsS (i + 1) ds (setPosOneS d i s) from rfl, hp, setPosOneS_pos_override]⟩

theorem applyDirsU_dirKey (ds : List SModelDir) (i : Nat) (u : SUnitDescriptor) :
    (applyDirsU i ds u).dirKey = u.dirKey := by
  obtain ⟨p, hp⟩ := applyDirsU_shape ds i u
  rw [hp]

theorem applyDirsS_dirKey (ds : List SModelDir) (i : Nat) (s : SSolverDescriptor) :
    (applyDirsS i ds s).dirKey = s.dirKey := by
  obtain ⟨p, hp⟩ := applyDirsS_shape ds i s
  rw [hp]

/-- If no directory key matches, the position-recompute loop is the
identity on a descriptor. -/
theorem applyDirsU_no_match (ds : List SModelDir) :
    ∀ (i : Nat) (u : SUnitDescriptor), (∀ d ∈ ds, d.key ≠ u.dirKey) →
      applyDirsU i ds u = u := by
  induction ds with
  | nil => intro i u _; rfl
  | cons d ds ih =>
    intro i u h
    rw [show applyDirsU i (d :: ds) u =
      applyDirsU (i + 1) ds (setPosOneU d i u) from rfl]
    rw [show setPosOneU d i u = u from by
      unfold setPosOneU
      exact if_neg fun he => h d (List.mem_cons_self d ds) he.symm]
    exact ih (i + 1) u fun e he => h e (List.mem_cons_of_mem d he)

/-- Solver version of `applyDirsU_no_match`. -/
theorem applyDirsS_no_match (ds : List SModelDir) :
    ∀ (i : Nat) (s : SSolverDescriptor), (∀ d ∈ ds, d.key ≠ s.dirKey) →
      applyDirsS i ds s = s := by
  induction ds with
  | nil => intro i s _; rfl
  | cons d ds ih =>
    intro i s h
    rw [show applyDirsS i (d :: ds) s =
      applyDirsS (i + 1) ds (setPosOneS d i s) from rfl]
    rw [show setPosOneS d i s = s from by
      unfold setPosOneS
      exact if_neg fun he => h d (List.mem_cons_self d ds) he.symm]
    exact ih (i + 1) s fun e he => h e (List.mem_cons_of_mem d he)

/-- With unique directory keys, two list positions holding directories
with the same key coincide. -/
theorem dirs_nodup_key_index (ds : List SModelDir)
    (hnd : (allDirsKeys ds).Nodup) (j k : Nat) (d e : SModelDir)
    (hj : ds.get? j = some d) (hk : ds.get? k = some e) (hkey : d.key = e.key) :
    j = k := by
  have hj' : (allDirsKeys ds).get? j = some d.key := by
    unfold allDirsKeys; rw [List.get?_map, hj]; rfl
  have hk' : (allDirsKeys ds).get? k = some e.key := by
    unfold allDirsKeys; rw [List.get?_map, hk]; rfl
  have hlen : j < (allDirsKeys ds).length := (List.get?_eq_some.mp hj').1
  exact List.get?_inj hlen hnd (by rw [hj', hk', hkey])

/-- If the directory at index `j` matches a descriptor's key and no later
directory does, the position-recompute loop started at `i` assigns the
descriptor position `i + j`. -/
theorem applyDirsU_last_match (ds : List SModelDir) :
    ∀ (u : SUnitDescriptor) (i j : Nat) (d : SModelDir),
      ds.get? j = some d → d.key = u.dirKey →
      (∀ k e, j < k → ds.get? k = some e → e.key ≠ u.dirKey) →
      applyDirsU i ds u = { u with position := i + j } := by
  induction ds with
  | nil => intro u i j d hj _ _; simp at hj
  | cons d0 ds ih =>
    intro u i j d hj hdk hafter
    cases j with
    | zero =>
      have hd0 : d0 = d := Option.some.inj hj
      rw [show applyDirsU i (d0 :: ds) u =
        applyDirsU (i + 1) ds (setPosOneU d0 i u) from rfl]
      rw [show setPosOneU d0 i u = { u with position := i } from by
        unfold setPosOneU; exact if_pos (by rw [hd0, hdk])]
      rw [applyDirsU_no_match ds (i + 1) { u with position := i }
        (fun e he => by
          obtain ⟨k, hk⟩ := List.mem_iff_get?.mp he
          exact hafter (k + 1) e (Nat.succ_pos k) hk)]
      rw [Nat.add_zero]
    | succ j' =>
      have hj' : ds.get? j' = some d := hj
      rw [show applyDirsU i (d0 :: ds) u =
        applyDirsU (i + 1) ds (setPosOneU d0 i u) from rfl]
      rw [ih (setPosOneU d0 i u) (i + 1) j' d hj'
        (by rw [setPosOneU_dirKey]; exact hdk)
        (fun k e hke hk => by
          rw [setPosOneU_dirKey]
          exact hafter (k + 1) e (Nat.succ_lt_succ hke) hk),
        setPosOneU_pos_override]
      congr 1
      omega

/-- Solver version of `applyDirsU_last_match`. -/
theorem applyDirsS_last_match (ds : List SModelDir) :
    ∀ (s : SSolverDescriptor) (i j : Nat) (d : SModelDir),
      ds.get? j = some d → d.key = s.dirKey →
      (∀ k e, j < k → ds.get? k = some e → e.key ≠ s.dirKey) →
      applyDirsS i ds s = { s with position := i + j } := by
  induction ds with
  | nil => intro s i j d hj _ _; simp at hj
  | cons d0 ds ih =>
    intro s i j d hj hdk hafter
    cases j with
    | zero =>
      have hd0 : d0 = d := Option.some.inj hj
      rw [show applyDirsS i (d0 :: ds) s =
        applyDirsS (i + 1) ds (setPosOneS d0 i s) from rfl]
      rw [show setPosOneS d0 i s = { s with position := i } from by
        unfold setPosOneS; exact if_pos (by rw [hd0, hdk])]
      rw [applyDirsS_no_match ds (i + 1) { s with position := i }
        (fun e he => by
          obtain ⟨k, hk⟩ := List.mem_iff_get?.mp he
          exact hafter (k + 1) e (Nat.succ_pos k) hk)]
      rw [Nat.add_zero]
    | succ j' =>
      have hj' : ds.get? j' = some d := hj
      rw [show applyDirsS i (d0 :: ds) s =
        applyDirsS (i + 1) ds (setPosOneS d0 i s) from rfl]
      rw [ih (setPosOneS d0 i s) (i + 1) j' d hj'
        (by rw [setPosOneS_dirKey]; exact hdk)
        (fun k e hke hk => by
          rw [setPosOneS_dirKey]
          exact hafter (k + 1) e (Nat.succ_lt_succ hke) hk),
        setPosOneS_pos_override]
      congr 1
      omega

theorem mem_setPositionsU (dirs : List SModelDir) (us : List SUnitDescriptor)
    (x : SUnitDescriptor) :
    x ∈ setPositionsU dirs us ↔ ∃ u ∈ us, applyDirsU 0 dirs u = x := by
  unfold setPositionsU
  rw [setPositionsFromU_eq_map]
  exact List.mem_map

theorem mem_setPositionsS (dirs : List SModelDir) (ss : List SSolverDescriptor)
    (x : SSolverDescriptor) :
    x ∈ setPositionsS dirs ss ↔ ∃ s ∈ ss, applyDirsS 0 dirs s = x := by
  unfold setPositionsS
  rw [setPositionsFromS_eq_map]
  exact List.mem_map

/-- Every unit descriptor kept or produced by the deterministic phases of
`UpdateAvailableModels` has its owning directory somewhere in the
directory list. -/
theorem updatePre_units_match (env : ScanEnv) (s : ManagerState)
    (u : SUnitDescriptor) (hu : u ∈ (updatePre env s).availableUnits) :
    ∃ v, (v ∈ vectorDelete (fun w => isToDelete s.dirsList w.dirKey) s.availableUnits ++
        (scanPhase env s.dirsList).2.1) ∧
      applyDirsU 0 (scanPhase env s.dirsList).1 v = u ∧
      ∃ j d, s.dirsList.get? j = some d ∧ d.active = true ∧ d.key = v.dirKey := by
  rw [show (updatePre env s).availableUnits =
    setPositionsU (scanPhase env s.dirsList).1
      (vectorDelete (fun w => isToDelete s.dirsList w.dirKey) s.availableUnits ++
        (scanPhase env s.dirsList).2.1) from rfl] at hu
  rw [mem_setPositionsU] at hu
  obtain ⟨v, hv, happ⟩ := hu
  refine ⟨v, hv, happ, ?_⟩
  rcases List.mem_append.mp hv with hkept | hnew
  · have hdel : isToDelete s.dirsList v.dirKey = false := by
      simpa using List.of_mem_filter hkept
    unfold isToDelete at hdel
    have hany : s.dirsList.any (fun d => d.active && d.key == v.dirKey) = true := by
      cases hq : s.dirsList.any (fun d => d.active && d.key == v.dirKey)
      · rw [hq] at hdel; exact absurd hdel (by simp)
      · rfl
    obtain ⟨d, hd, hprop⟩ := List.any_eq_true.mp hany
    obtain ⟨hact, hkey⟩ := Bool.and_eq_true_iff.mp hprop
    obtain ⟨j, hj⟩ := List.mem_iff_get?.mp hd
    exact ⟨j, d, hj, hact, beq_iff_eq.mp hkey⟩
  · obtain ⟨d, hd, hact, -, hkey⟩ := scanPhase_units_mem env s.dirsList v hnew
    obtain ⟨j, hj⟩ := List.mem_iff_get?.mp hd
    exact ⟨j, d, hj, hact, hkey.symm⟩

/-- Solver version of `updatePre_units_match`. -/
theorem updatePre_solvers_match (env : ScanEnv) (s : ManagerState)
    (w : SSolverDescriptor) (hw : w ∈ (updatePre env s).availableSolvers) :
    ∃ v, (v ∈ vectorDelete (fun x => isToDelete s.dirsList x.dirKey) s.availableSolvers ++
        (scanPhase env s.dirsList).2.2) ∧
      applyDirsS 0 (scanPhase env s.dirsList).1 v = w ∧
      ∃ j d, s.dirsList.get? j = some d ∧ d.active = true ∧ d.key = v.dirKey := by
  rw [show (updatePre env s).availableSolvers =
    setPositionsS (scanPhase env s.dirsList).1
      (vectorDelete (fun x => isToDelete s.dirsList x.dirKey) s.availableSolvers ++
        (scanPhase env s.dirsList).2.2) from rfl] at hw
  rw [mem_setPositionsS] at hw
  obtain ⟨v, hv, happ⟩ := hw
  refine ⟨v, hv, happ, ?_⟩
  rcases List.mem_append.mp hv with hkept | hnew
  · have hdel : isToDelete s.dirsList v.dirKey = false := by
      simpa using List.of_mem_filter hkept
    unfold isToDelete at hdel
    have hany : s.dirsList.any (fun d => d.active && d.key == v.dirKey) = true := by
      cases hq : s.dirsList.any (fun d => d.active && d.key == v.dirKey)
      · rw [hq] at hdel; exact absurd hdel (by simp)
      · rfl
    obtain ⟨d, hd, hprop⟩ := List.any_eq_true.mp hany
    obtain ⟨hact, hkey⟩ := Bool.and_eq_true_iff.mp hprop
    obtain ⟨j, hj⟩ := List.mem_iff_get?.mp hd
    exact ⟨j, d, hj, hact, beq_iff_eq.mp hkey⟩
  · obtain ⟨d, hd, hact, -, hkey⟩ := scanPhase_solvers_mem env s.dirsList v hnew
    obtain ⟨j, hj⟩ := List.mem_iff_get?.mp hd
    exact ⟨j, d, hj, hact, hkey.symm⟩

/-- C2 counterexample: `UpdateAvailableModels` sorts with `std::sort`
(ModelsManager.cpp:241-242), which does not constrain the relative order
of elements whose positions are equal.  On a state with two units from the
same directory (equal positions), the reversed list is a legal outcome of
the call, so descriptors from the same directory are NOT guaranteed to
keep their discovery order, contradicting the stable-sort part of the
claim. -/
theorem C2_counterexample :
    UpdateOutcome noScanEnv c2s0 c2s1 ∧
    c2s0.availableUnits.map SUnitDescriptor.uniqueID = ["1", "2"] ∧
    c2s1.availableUnits.map SUnitDescriptor.uniqueID = ["2", "1"] := by
  refine ⟨⟨rfl, ?_, ?_, ?_, ?_⟩, rfl, rfl⟩
  · exact List.Perm.swap c2u1 c2u2 []
  · exact List.chain'_pair.mpr (le_refl 0)
  · exact List.Perm.nil
  · exact List.chain'_nil

/-- C2 (amended): after every run of `UpdateAvailableModels` on a state
with unique directory keys, every cached descriptor's `position` equals
the list index of the directory whose key it carries, and both descriptor
lists are sorted by `position` in nondecreasing order.  The relative order
of descriptors sharing a directory is NOT guaranteed, because the code
sorts with `std::sort` (unstable; see the counterexample). -/
theorem C2_update_positions_sorted (env : ScanEnv) (s : ManagerState)
    (hnd : (allDirsKeys s.dirsList).Nodup) :
    ∀ s', UpdateOutcome env s s' →
      ((∀ u ∈ s'.availableUnits, ∃ j d, s'.dirsList.get? j = some d ∧
          d.key = u.dirKey ∧ u.position = j) ∧ SortedByPosU s'.availableUnits) ∧
      ((∀ w ∈ s'.availableSolvers, ∃ j d, s'.dirsList.get? j = some d ∧
          d.key = w.dirKey ∧ w.position = j) ∧ SortedByPosS s'.availableSolvers) := by
  intro s' hout
  obtain ⟨hdirs, hpermU, hsortU, hpermS, hsortS⟩ := hout
  refine ⟨⟨?_, hsortU⟩, ?_, hsortS⟩
  · intro u hu
    have hu' : u ∈ (updatePre env s).availableUnits := hpermU.mem_iff.mp hu
    obtain ⟨v, -, happ, j, d, hj, -, hkey⟩ := updatePre_units_match env s u hu'
    have hj' : (scanPhase env s.dirsList).1.get? j = some (scanDirTransform d) := by
      rw [scanPhase_fst, List.get?_map, hj]; rfl
    have hkey' : (scanDirTransform d).key = v.dirKey := by
      rw [scanDirTransform_key]; exact hkey
    have hafter : ∀ k e, j < k → (scanPhase env s.dirsList).1.get? k = some e →
        e.key ≠ v.dirKey := by
      intro k e hjk hke hkeq
      rw [scanPhase_fst, List.get?_map] at hke
      cases he0 : s.dirsList.get? k with
      | none => rw [he0] at hke; exact absurd hke (by simp)
      | some e0 =>
        rw [he0] at hke
        have he : scanDirTransform e0 = e := Option.some.inj hke
        have hkeys : d.key = e0.key := by
          rw [hkey, ← hkeq, ← he, scanDirTransform_key]
        exact absurd (dirs_nodup_key_index s.dirsList hnd j k d e0 hj he0 hkeys)
          (Nat.ne_of_lt hjk)
    have hlast := applyDirsU_last_match (scanPhase env s.dirsList).1 v 0 j
      (scanDirTransform d) hj' hkey' hafter
    rw [hlast] at happ
    refine ⟨j, scanDirTransform d, ?_, ?_, ?_⟩
    · rw [hdirs]; exact hj'
    · rw [← happ]; exact hkey'
    · rw [← happ]; exact Nat.zero_add j
  · intro w hw
    have hw' : w ∈ (updatePre env s).availableSolvers := hpermS.mem_iff.mp hw
    obtain ⟨v, -, happ, j, d, hj, -, hkey⟩ := updatePre_solvers_match env s w hw'
    have hj' : (scanPhase env s.dirsList).1.get? j = some (scanDirTransform d) := by
      rw [scanPhase_fst, List.get?_map, hj]; rfl
    have hkey' : (scanDirTransform d).key = v.dirKey := by
      rw [scanDirTransform_key]; exact hkey
    have hafter : ∀ k e, j < k → (scanPhase env s.dirsList).1.get? k = some e →
        e.key ≠ v.dirKey := by
      intro k e hjk hke hkeq
      rw [scanPhase_fst, List.get?_map] at hke
      cases he0 : s.dirsList.get? k with
      | none => rw [he0] at hke; exact absurd hke (by simp)
      | some e0 =>
        rw [he0] at hke
        have he : scanDirTransform e0 = e := Option.some.inj hke
        have hkeys : d.key = e0.key := by
          rw [hkey, ← hkeq, ← he, scanDirTransform_key]
        exact absurd (dirs_nodup_key_index s.dirsList hnd j k d e0 hj he0 hkeys)
          (Nat.ne_of_lt hjk)
    have hlast := applyDirsS_last_match (scanPhase env s.dirsList).1 v 0 j
      (scanDirTransform d) hj' hkey' hafter
    rw [hlast] at happ
    refine ⟨j, scanDirTransform d, ?_, ?_, ?_⟩
    · rw [hdirs]; exact hj'
    · rw [← happ]; exact hkey'
    · rw [← happ]; exact Nat.zero_add j

/-- Witness for C2 at the concrete state `c2s0` with the discovery-order
post-state `c2sSorted`: the first unit is owned by directory 0 and sits at
position 0, and the output is sorted by position. -/
theorem C2_witness :
    (∃ j d, c2sSorted.dirsList.get? j = some d ∧ d.key = c2u1.dirKey ∧
      c2u1.position = j) ∧
    SortedByPosU c2sSorted.availableUnits ∧ SortedByPosS c2sSorted.availableSolvers :=
  ⟨((C2_update_positions_sorted noScanEnv c2s0 (by decide) c2sSorted
      ⟨rfl, by decide, List.chain'_pair.mpr (le_refl 0), by decide, List.chain'_nil⟩).1).1 c2u1
      (List.mem_cons_self c2u1 [c2u2]),
   ((C2_update_positions_sorted noScanEnv c2s0 (by decide) c2sSorted
      ⟨rfl, by decide, List.chain'_pair.mpr (le_refl 0), by decide, List.chain'_nil⟩).1).2,
   ((C2_update_positions_sorted noScanEnv c2s0 (by decide) c2sSorted
      ⟨rfl, by decide, List.chain'_pair.mpr (le_refl 0), by decide, List.chain'_nil⟩).2).2⟩

/-- With unique directory keys, no entry of the list with index `i`
erased carries the key of the directory that sat at index `i`. -/
theorem eraseIdx_no_key (l : List SModelDir) (i : Nat) (d0 : SModelDir)
    (hnd : (allDirsKeys l).Nodup) (hi : l.get? i = some d0) :
    ∀ dd ∈ l.eraseIdx i, dd.key ≠ d0.key := by
  intro dd hdd
  rw [List.eraseIdx_eq_take_drop_succ] at hdd
  rcases List.mem_append.mp hdd with ht | hdr
  · obtain ⟨j, hj⟩ := List.mem_iff_get?.mp ht
    have hjlen : j < (l.take i).length := (List.get?_eq_some.mp hj).1
    have hji : j < i := lt_of_lt_of_le hjlen (by
      rw [List.length_take]
      exact min_le_left i l.length)
    have hj' : l.get? j = some dd := by rw [← List.get?_take hji]; exact hj
    intro hkey
    exact absurd (dirs_nodup_key_index l hnd j i dd d0 hj' hi hkey)
      (Nat.ne_of_lt hji)
  · obtain ⟨j, hj⟩ := List.mem_iff_get?.mp hdr
    have hj' : l.get? (i + 1 + j) = some dd := by
      rw [← List.get?_drop l (i + 1) j]; exact hj
    intro hkey
    have := dirs_nodup_key_index l hnd (i + 1 + j) i dd d0 hj' hi hkey
    omega

/-- Every entry sitting at an index other than `i` survives erasing
index `i`. -/
theorem mem_eraseIdx_of_get?_ne (l : List SModelDir) (i j : Nat) (dd : SModelDir)
    (hj : l.get? j = some dd) (hne : j ≠ i) : dd ∈ l.eraseIdx i := by
  rw [List.eraseIdx_eq_take_drop_succ]
  rcases Nat.lt_or_ge j i with hji | hgi
  · exact List.mem_append_left _
      (List.get?_mem (by rw [List.get?_take hji]; exact hj))
  · have hjgt : i < j := lt_of_le_of_ne hgi (Ne.symm hne)
    have hdj : (l.drop (i + 1)).get? (j - (i + 1)) = some dd := by
      rw [List.get?_drop]
      rw [show i + 1 + (j - (i + 1)) = j from by omega]
      exact hj
    exact List.mem_append_right _ (List.get?_mem hdj)

/-- C5: after every run of `UpdateAvailableModels`, every cached
descriptor's owning-directory key belongs to an active directory of the
post-state; and, for a pre-state with unique directory keys, all
directories checked, and every cached descriptor owned by an active
directory, deactivating directory `i` (the flag update of
`SetDirActivity(i, false)` followed by `UpdateAvailableModels`) or
removing it outright (the `m_dirsList.erase` of `RemoveDir(i)` followed
by `UpdateAvailableModels`) removes exactly the descriptors owned by that
directory: the post-state caches are, up to the sort, the pre-state
caches with precisely that directory's descriptors dropped and positions
recomputed, every surviving descriptor is owned by another directory, and
every descriptor of another directory survives with all fields except
`position` unchanged. -/
theorem C5_active_ownership (env : ScanEnv) (s : ManagerState) (i : Nat)
    (d0 : SModelDir)
    (hget : s.dirsList.get? i = some d0)
    (hnd : (allDirsKeys s.dirsList).Nodup)
    (hchk : ∀ d ∈ s.dirsList, d.checked = true)
    (hinvU : ∀ u ∈ s.availableUnits,
      ∃ dd ∈ s.dirsList, dd.active = true ∧ dd.key = u.dirKey)
    (hinvS : ∀ w ∈ s.availableSolvers,
      ∃ dd ∈ s.dirsList, dd.active = true ∧ dd.key = w.dirKey) :
    (∀ t t' : ManagerState, UpdateOutcome env t t' →
      (∀ u ∈ t'.availableUnits,
        ∃ dd ∈ t'.dirsList, dd.active = true ∧ dd.key = u.dirKey) ∧
      (∀ w ∈ t'.availableSolvers,
        ∃ dd ∈ t'.dirsList, dd.active = true ∧ dd.key = w.dirKey)) ∧
    (∀ s', UpdateOutcome env
        { s with dirsList := setDirActivityFlags s.dirsList i false } s' →
      (s'.availableUnits.Perm (setPositionsU (setDirActivityFlags s.dirsList i false)
          (s.availableUnits.filter (fun u => !(u.dirKey == d0.key)))) ∧
        (∀ u ∈ s'.availableUnits, u.dirKey ≠ d0.key) ∧
        (∀ v ∈ s.availableUnits, v.dirKey ≠ d0.key →
          ∃ u ∈ s'.availableUnits, u.uniqueID = v.uniqueID ∧ u.dirKey = v.dirKey ∧
            u.fileLocation = v.fileLocation)) ∧
      (s'.availableSolvers.Perm (setPositionsS (setDirActivityFlags s.dirsList i false)
          (s.availableSolvers.filter (fun w => !(w.dirKey == d0.key)))) ∧
        (∀ w ∈ s'.availableSolvers, w.dirKey ≠ d0.key) ∧
        (∀ v ∈ s.availableSolvers, v.dirKey ≠ d0.key →
          ∃ w ∈ s'.availableSolvers, w.uniqueID = v.uniqueID ∧ w.dirKey = v.dirKey ∧
            w.fileLocation = v.fileLocation))) ∧
    (∀ s', UpdateOutcome env { s with dirsList := s.dirsList.eraseIdx i } s' →
      (s'.availableUnits.Perm (setPositionsU (s.dirsList.eraseIdx i)
          (s.availableUnits.filter (fun u => !(u.dirKey == d0.key)))) ∧
        (∀ u ∈ s'.availableUnits, u.dirKey ≠ d0.key) ∧
        (∀ v ∈ s.availableUnits, v.dirKey ≠ d0.key →
          ∃ u ∈ s'.availableUnits, u.uniqueID = v.uniqueID ∧ u.dirKey = v.dirKey ∧
            u.fileLocation = v.fileLocation)) ∧
      (s'.availableSolvers.Perm (setPositionsS (s.dirsList.eraseIdx i)
          (s.availableSolvers.filter (fun w => !(w.dirKey == d0.key)))) ∧
        (∀ w ∈ s'.availableSolvers, w.dirKey ≠ d0.key) ∧
        (∀ v ∈ s.availableSolvers, v.dirKey ≠ d0.key →
          ∃ w ∈ s'.availableSolvers, w.uniqueID = v.uniqueID ∧ w.dirKey = v.dirKey ∧
            w.fileLocation = v.fileLocation))) := by
  have hlt : i < s.dirsList.length := (List.get?_eq_some.mp hget).1
  have hflags : setDirActivityFlags s.dirsList i false =
      s.dirsList.set i { d0 with checked := d0.active || !false, active := false } := by
    unfold setDirActivityFlags; rw [hget]
  refine ⟨?_, ?_, ?_⟩
  · intro t t' hout
    obtain ⟨hdirs, hpermU, -, hpermS, -⟩ := hout
    constructor
    · intro u hu
      obtain ⟨v, -, happ, j, d, hj, hact, hkey⟩ :=
        updatePre_units_match env t u (hpermU.mem_iff.mp hu)
      refine ⟨scanDirTransform d, ?_, ?_, ?_⟩
      · rw [hdirs]
        exact List.get?_mem (l := (updatePre env t).dirsList) (n := j)
          (by rw [show (updatePre env t).dirsList = (scanPhase env t.dirsList).1 from rfl,
            scanPhase_fst, List.get?_map, hj]; rfl)
      · rw [scanDirTransform_active]; exact hact
      · rw [scanDirTransform_key, hkey, ← happ, applyDirsU_dirKey]
    · intro w hw
      obtain ⟨v, -, happ, j, d, hj, hact, hkey⟩ :=
        updatePre_solvers_match env t w (hpermS.mem_iff.mp hw)
      refine ⟨scanDirTransform d, ?_, ?_, ?_⟩
      · rw [hdirs]
        exact List.get?_mem (l := (updatePre env t).dirsList) (n := j)
          (by rw [show (updatePre env t).dirsList = (scanPhase env t.dirsList).1 from rfl,
            scanPhase_fst, List.get?_map, hj]; rfl)
      · rw [scanDirTransform_active]; exact hact
      · rw [scanDirTransform_key, hkey, ← happ, applyDirsS_dirKey]
  · intro s' hout
    have hallchk : ∀ d ∈ setDirActivityFlags s.dirsList i false, willRescan d = false := by
      intro d hd
      obtain ⟨j, hj⟩ := List.mem_iff_get?.mp hd
      rw [hflags] at hj
      by_cases hij : i = j
      · subst hij
        rw [List.get?_set_eq_of_lt _ hlt] at hj
        rw [← Option.some.inj hj]
        unfold willRescan
        simp
      · rw [List.get?_set_ne _ _ hij] at hj
        unfold willRescan
        rw [hchk d (List.get?_mem hj)]
        simp
    have hscan := scanPhase_all_checked env _ hallchk
    have hiso : ∀ k : String, (∃ u0, u0 ∈ s.availableUnits ∧ u0.dirKey = k) ∨
        (∃ w0, w0 ∈ s.availableSolvers ∧ w0.dirKey = k) →
        isToDelete (setDirActivityFlags s.dirsList i false) k = (k == d0.key) := by
      intro k hk
      by_cases hkey : k = d0.key
      · have hfalse : (setDirActivityFlags s.dirsList i false).any
            (fun d => d.active && d.key == k) = false := by
          rw [List.any_eq_false]
          intro dd hdd
          obtain ⟨j, hj⟩ := List.mem_iff_get?.mp hdd
          rw [hflags] at hj
          by_cases hij : i = j
          · subst hij
            rw [List.get?_set_eq_of_lt _ hlt] at hj
            rw [← Option.some.inj hj]
            simp
          · rw [List.get?_set_ne _ _ hij] at hj
            intro hcontra
            obtain ⟨-, hbk⟩ := Bool.and_eq_true_iff.mp hcontra
            have : dd.key = d0.key := by rw [beq_iff_eq.mp hbk, hkey]
            exact hij (dirs_nodup_key_index s.dirsList hnd i j d0 dd hget hj this.symm)
        unfold isToDelete
        rw [hfalse, hkey]
        simp
      · have hdd : ∃ dd ∈ s.dirsList, dd.active = true ∧ dd.key = k := by
          rcases hk with ⟨u0, hu0, hu0k⟩ | ⟨w0, hw0, hw0k⟩
          · obtain ⟨dd, h1, h2, h3⟩ := hinvU u0 hu0
            exact ⟨dd, h1, h2, by rw [h3, hu0k]⟩
          · obtain ⟨dd, h1, h2, h3⟩ := hinvS w0 hw0
            exact ⟨dd, h1, h2, by rw [h3, hw0k]⟩
        obtain ⟨dd, hddmem, hddact, hddkey⟩ := hdd
        obtain ⟨j, hj⟩ := List.mem_iff_get?.mp hddmem
        have hij : i ≠ j := by
          intro hij
          subst hij
          rw [hget] at hj
          exact hkey (by rw [← hddkey, ← Option.some.inj hj])
        have hmem2 : dd ∈ setDirActivityFlags s.dirsList i false := by
          rw [hflags]
          exact List.get?_mem (by rw [List.get?_set_ne _ _ hij]; exact hj)
        have htrue : (setDirActivityFlags s.dirsList i false).any
            (fun d => d.active && d.key == k) = true :=
          List.any_eq_true.mpr ⟨dd, hmem2, by rw [hddact, hddkey]; simp⟩
        unfold isToDelete
        rw [htrue]
        simp [hkey]
    have hkeptU : vectorDelete
        (fun u => isToDelete (setDirActivityFlags s.dirsList i false) u.dirKey)
        s.availableUnits =
        s.availableUnits.filter (fun u => !(u.dirKey == d0.key)) := by
      unfold vectorDelete
      exact List.filter_congr fun u hu => by
        show (!(isToDelete (setDirActivityFlags s.dirsList i false) u.dirKey)) =
          (!(u.dirKey == d0.key))
        rw [hiso u.dirKey (Or.inl ⟨u, hu, rfl⟩)]
    have hkeptS : vectorDelete
        (fun w => isToDelete (setDirActivityFlags s.dirsList i false) w.dirKey)
        s.availableSolvers =
        s.availableSolvers.filter (fun w => !(w.dirKey == d0.key)) := by
      unfold vectorDelete
      exact List.filter_congr fun w hw => by
        show (!(isToDelete (setDirActivityFlags s.dirsList i false) w.dirKey)) =
          (!(w.dirKey == d0.key))
        rw [hiso w.dirKey (Or.inr ⟨w, hw, rfl⟩)]
    have hpreU : (updatePre env
        { s with dirsList := setDirActivityFlags s.dirsList i false }).availableUnits =
        setPositionsU (setDirActivityFlags s.dirsList i false)
          (s.availableUnits.filter (fun u => !(u.dirKey == d0.key))) := by
      simp only [updatePre, hscan, hkeptU, List.append_nil]
    have hpreS : (updatePre env
        { s with dirsList := setDirActivityFlags s.dirsList i false }).availableSolvers =
        setPositionsS (setDirActivityFlags s.dirsList i false)
          (s.availableSolvers.filter (fun w => !(w.dirKey == d0.key))) := by
      simp only [updatePre, hscan, hkeptS, List.append_nil]
    obtain ⟨hdirs, hpermU, -, hpermS, -⟩ := hout
    rw [hpreU] at hpermU
    rw [hpreS] at hpermS
    refine ⟨⟨hpermU, ?_, ?_⟩, ⟨hpermS, ?_, ?_⟩⟩
    · intro u hu
      obtain ⟨v, hvf, happ⟩ := (mem_setPositionsU _ _ u).mp (hpermU.mem_iff.mp hu)
      have hvkey : v.dirKey ≠ d0.key := by
        have := List.of_mem_filter hvf
        simpa using this
      rw [← happ, applyDirsU_dirKey]
      exact hvkey
    · intro v hv hvne
      have hvf : v ∈ s.availableUnits.filter (fun u => !(u.dirKey == d0.key)) :=
        List.mem_filter.mpr ⟨hv, by simpa using hvne⟩
      refine ⟨applyDirsU 0 (setDirActivityFlags s.dirsList i false) v,
        hpermU.mem_iff.mpr ((mem_setPositionsU _ _ _).mpr ⟨v, hvf, rfl⟩), ?_⟩
      obtain ⟨p, hp⟩ := applyDirsU_shape (setDirActivityFlags s.dirsList i false) 0 v
      rw [hp]
      exact ⟨rfl, rfl, rfl⟩
    · intro w hw
      obtain ⟨v, hvf, happ⟩ := (mem_setPositionsS _ _ w).mp (hpermS.mem_iff.mp hw)
      have hvkey : v.dirKey ≠ d0.key := by
        have := List.of_mem_filter hvf
        simpa using this
      rw [← happ, applyDirsS_dirKey]
      exact hvkey
    · intro v hv hvne
      have hvf : v ∈ s.availableSolvers.filter (fun w => !(w.dirKey == d0.key)) :=
        List.mem_filter.mpr ⟨hv, by simpa using hvne⟩
      refine ⟨applyDirsS 0 (setDirActivityFlags s.dirsList i false) v,
        hpermS.mem_iff.mpr ((mem_setPositionsS _ _ _).mpr ⟨v, hvf, rfl⟩), ?_⟩
      obtain ⟨p, hp⟩ := applyDirsS_shape (setDirActivityFlags s.dirsList i false) 0 v
      rw [hp]
      exact ⟨rfl, rfl, rfl⟩
  · intro s' hout
    have hallchk2 : ∀ d ∈ s.dirsList.eraseIdx i, willRescan d = false := by
      intro d hd
      rw [List.eraseIdx_eq_take_drop_succ] at hd
      rcases List.mem_append.mp hd with ht | hdr
      · have hmem : d ∈ s.dirsList := List.take_subset i s.dirsList ht
        unfold willRescan
        rw [hchk d hmem]
        simp
      · have hmem : d ∈ s.dirsList := List.drop_subset (i + 1) s.dirsList hdr
        unfold willRescan
        rw [hchk d hmem]
        simp
    have hscan2 := scanPhase_all_checked env _ hallchk2
    have hiso2 : ∀ k : String, (∃ u0, u0 ∈ s.availableUnits ∧ u0.dirKey = k) ∨
        (∃ w0, w0 ∈ s.availableSolvers ∧ w0.dirKey = k) →
        isToDelete (s.dirsList.eraseIdx i) k = (k == d0.key) := by
      intro k hk
      by_cases hkey : k = d0.key
      · have hfalse : (s.dirsList.eraseIdx i).any
            (fun d => d.active && d.key == k) = false := by
          rw [List.any_eq_false]
          intro dd hdd hcontra
          obtain ⟨-, hbk⟩ := Bool.and_eq_true_iff.mp hcontra
          exact eraseIdx_no_key s.dirsList i d0 hnd hget dd hdd
            (by rw [beq_iff_eq.mp hbk, hkey])
        unfold isToDelete
        rw [hfalse, hkey]
        simp
      · have hdd : ∃ dd ∈ s.dirsList, dd.active = true ∧ dd.key = k := by
          rcases hk with ⟨u0, hu0, hu0k⟩ | ⟨w0, hw0, hw0k⟩
          · obtain ⟨dd, h1, h2, h3⟩ := hinvU u0 hu0
            exact ⟨dd, h1, h2, by rw [h3, hu0k]⟩
          · obtain ⟨dd, h1, h2, h3⟩ := hinvS w0 hw0
            exact ⟨dd, h1, h2, by rw [h3, hw0k]⟩
        obtain ⟨dd, hddmem, hddact, hddkey⟩ := hdd
        obtain ⟨j, hj⟩ := List.mem_iff_get?.mp hddmem
        have hij : j ≠ i := by
          intro hij
          subst hij
          rw [hget] at hj
          exact hkey (by rw [← hddkey, Option.some.inj hj])
        have hmem2 : dd ∈ s.dirsList.eraseIdx i :=
          mem_eraseIdx_of_get?_ne s.dirsList i j dd hj hij
        have htrue : (s.dirsList.eraseIdx i).any
            (fun d => d.active && d.key == k) = true :=
          List.any_eq_true.mpr ⟨dd, hmem2, by rw [hddact, hddkey]; simp⟩
        unfold isToDelete
        rw [htrue]
        simp [hkey]
    have hkeptU2 : vectorDelete
        (fun u => isToDelete (s.dirsList.eraseIdx i) u.dirKey)
        s.availableUnits =
        s.availableUnits.filter (fun u => !(u.dirKey == d0.key)) := by
      unfold vectorDelete
      exact List.filter_congr fun u hu => by
        show (!(isToDelete (s.dirsList.eraseIdx i) u.dirKey)) =
          (!(u.dirKey == d0.key))
        rw [hiso2 u.dirKey (Or.inl ⟨u, hu, rfl⟩)]
    have hkeptS2 : vectorDelete
        (fun w => isToDelete (s.dirsList.eraseIdx i) w.dirKey)
        s.availableSolvers =
        s.availableSolvers.filter (fun w => !(w.dirKey == d0.key)) := by
      unfold vectorDelete
      exact List.filter_congr fun w hw => by
        show (!(isToDelete (s.dirsList.eraseIdx i) w.dirKey)) =
          (!(w.dirKey == d0.key))
        rw [hiso2 w.dirKey (Or.inr ⟨w, hw, rfl⟩)]
    have hpreU2 : (updatePre env
        { s with dirsList := s.dirsList.eraseIdx i }).availableUnits =
        setPositionsU (s.dirsList.eraseIdx i)
          (s.availableUnits.filter (fun u => !(u.dirKey == d0.key))) := by
      simp only [updatePre, hscan2, hkeptU2, List.append_nil]
    have hpreS2 : (updatePre env
        { s with dirsList := s.dirsList.eraseIdx i }).availableSolvers =
        setPositionsS (s.dirsList.eraseIdx i)
          (s.availableSolvers.filter (fun w => !(w.dirKey == d0.key))) := by
      simp only [updatePre, hscan2, hkeptS2, List.append_nil]
    obtain ⟨hdirs, hpermU, -, hpermS, -⟩ := hout
    rw [hpreU2] at hpermU
    rw [hpreS2] at hpermS
    refine ⟨⟨hpermU, ?_, ?_⟩, ⟨hpermS, ?_, ?_⟩⟩
    · intro u hu
      obtain ⟨v, hvf, happ⟩ := (mem_setPositionsU _ _ u).mp (hpermU.mem_iff.mp hu)
      have hvkey : v.dirKey ≠ d0.key := by
        have := List.of_mem_filter hvf
        simpa using this
      rw [← happ, applyDirsU_dirKey]
      exact hvkey
    · intro v hv hvne
      have hvf : v ∈ s.availableUnits.filter (fun u => !(u.dirKey == d0.key)) :=
        List.mem_filter.mpr ⟨hv, by simpa using hvne⟩
      refine ⟨applyDirsU 0 (s.dirsList.eraseIdx i) v,
        hpermU.mem_iff.mpr ((mem_setPositionsU _ _ _).mpr ⟨v, hvf, rfl⟩), ?_⟩
      obtain ⟨p, hp⟩ := applyDirsU_shape (s.dirsList.eraseIdx i) 0 v
      rw [hp]
      exact ⟨rfl, rfl, rfl⟩
    · intro w hw
      obtain ⟨v, hvf, happ⟩ := (mem_setPositionsS _ _ w).mp (hpermS.mem_iff.mp hw)
      have hvkey : v.dirKey ≠ d0.key := by
        have := List.of_mem_filter hvf
        simpa using this
      rw [← happ, applyDirsS_dirKey]
      exact hvkey
    · intro v hv hvne
      have hvf : v ∈ s.availableSolvers.filter (fun w => !(w.dirKey == d0.key)) :=
        List.mem_filter.mpr ⟨hv, by simpa using hvne⟩
      refine ⟨applyDirsS 0 (s.dirsList.eraseIdx i) v,
        hpermS.mem_iff.mpr ((mem_setPositionsS _ _ _).mpr ⟨v, hvf, rfl⟩), ?_⟩
      obtain ⟨p, hp⟩ := applyDirsS_shape (s.dirsList.eraseIdx i) 0 v
      rw [hp]
      exact ⟨rfl, rfl, rfl⟩

/-- Witness for C5 at the concrete two-directory scenario: deactivating
`A` leaves exactly `B`'s unit and solver, the surviving unit keeps its
fields, its owning directory is still active, and removing `A` outright
likewise leaves exactly `B`'s unit and solver. -/
theorem C5_witness :
    (c5sAfter.availableUnits.Perm (setPositionsU (setDirActivityFlags c5s.dirsList 0 false)
        (c5s.availableUnits.filter (fun u => !(u.dirKey == c5DirA.key)))) ∧
      (∃ u ∈ c5sAfter.availableUnits, u.uniqueID = c5uB.uniqueID ∧ u.dirKey = c5uB.dirKey ∧
        u.fileLocation = c5uB.fileLocation)) ∧
    (c5sAfter.availableSolvers.Perm (setPositionsS (setDirActivityFlags c5s.dirsList 0 false)
        (c5s.availableSolvers.filter (fun w => !(w.dirKey == c5DirA.key)))) ∧
      (∃ dd ∈ c5sAfter.dirsList, dd.active = true ∧ dd.key = c5uB.dirKey)) ∧
    (c5sRemoved.availableUnits.Perm (setPositionsU (c5s.dirsList.eraseIdx 0)
        (c5s.availableUnits.filter (fun u => !(u.dirKey == c5DirA.key)))) ∧
      (∃ u ∈ c5sRemoved.availableUnits, u.uniqueID = c5uB.uniqueID ∧ u.dirKey = c5uB.dirKey ∧
        u.fileLocation = c5uB.fileLocation)) ∧
    (c5sRemoved.availableSolvers.Perm (setPositionsS (c5s.dirsList.eraseIdx 0)
        (c5s.availableSolvers.filter (fun w => !(w.dirKey == c5DirA.key)))) ∧
      (∀ u ∈ c5sRemoved.availableUnits, u.dirKey ≠ c5DirA.key)) :=
  ⟨⟨((C5_active_ownership noScanEnv c5s 0 c5DirA rfl (by decide) (by decide) (by decide)
        (by decide)).2.1 c5sAfter
      ⟨rfl, by decide, List.chain'_singleton _, by decide, List.chain'_singleton _⟩).1.1,
    ((C5_active_ownership noScanEnv c5s 0 c5DirA rfl (by decide) (by decide) (by decide)
        (by decide)).2.1 c5sAfter
      ⟨rfl, by decide, List.chain'_singleton _, by decide, List.chain'_singleton _⟩).1.2.2
      c5uB (by decide) (by decide)⟩,
   ⟨((C5_active_ownership noScanEnv c5s 0 c5DirA rfl (by decide) (by decide) (by decide)
        (by decide)).2.1 c5sAfter
      ⟨rfl, by decide, List.chain'_singleton _, by decide, List.chain'_singleton _⟩).2.1,
    ((C5_active_ownership noScanEnv c5s 0 c5DirA rfl (by decide) (by decide) (by decide)
        (by decide)).1 { c5s with dirsList := setDirActivityFlags c5s.dirsList 0 false }
      c5sAfter
      ⟨rfl, by decide, List.chain'_singleton _, by decide, List.chain'_singleton _⟩).1
      c5uB (by decide)⟩,
   ⟨((C5_active_ownership noScanEnv c5s 0 c5DirA rfl (by decide) (by decide) (by decide)
        (by decide)).2.2 c5sRemoved
      ⟨rfl, by decide, List.chain'_singleton _, by decide, List.chain'_singleton _⟩).1.1,
    ((C5_active_ownership noScanEnv c5s 0 c5DirA rfl (by decide) (by decide) (by decide)
        (by decide)).2.2 c5sRemoved
      ⟨rfl, by decide, List.chain'_singleton _, by decide, List.chain'_singleton _⟩).1.2.2
      c5uB (by decide) (by decide)⟩,
   ⟨((C5_active_ownership noScanEnv c5s 0 c5DirA rfl (by decide) (by decide) (by decide)
        (by decide)).2.2 c5sRemoved
      ⟨rfl, by decide, List.chain'_singleton _, by decide, List.chain'_singleton _⟩).2.1,
    ((C5_active_ownership noScanEnv c5s 0 c5DirA rfl (by decide) (by decide) (by decide)
        (by decide)).2.2 c5sRemoved
      ⟨rfl, by decide, List.chain'_singleton _, by decide, List.chain'_singleton _⟩).1.2.1⟩⟩

/-- A unit probe whose factory does not throw a non-logic-error exception
never lets an exception escape. -/
theorem tryGetUnitDescriptor_no_escape (path : String) (p : UnitProbe)
    (h : p.outcome ≠ .throws false) :
    ∃ r, tryGetUnitDescriptor path p = .ok r := by
  unfold tryGetUnitDescriptor
  cases hF : p.hasFactory
  · exact ⟨none, rfl⟩
  · cases hout : p.outcome with
    | throws b =>
      cases b
      · exact absurd hout h
      · exact ⟨none, rfl⟩
    | returns inst =>
      by_cases hv : inst.compilerVer = COMPILER_VERSION
      · by_cases ha : inst.accessorsThrow
        · exact ⟨none, by simp [hv, ha]⟩
        · exact ⟨some ⟨inst.uniqueID, inst.name, inst.author, inst.version,
            inst.isDynamic, path, 0, ""⟩, by simp [hv, ha]⟩
      · exact ⟨none, by simp [hv]⟩

/-- Unfolding equation of `tryGetSolverLoop` on a nonempty index list. -/
theorem tryGetSolverLoop_cons (path : String) (p : SolverProbe) (i : Nat)
    (rest : List Nat) :
    tryGetSolverLoop path p (i :: rest) =
      match p.factories i with
      | none => tryGetSolverLoop path p rest
      | some (.throws isLogic) =>
        if isLogic then tryGetSolverLoop path p rest else .error ()
      | some (.returns inst) =>
        if inst.compilerVer ≠ COMPILER_VERSION then tryGetSolverLoop path p rest
        else if inst.accessorsThrow then tryGetSolverLoop path p rest
        else .ok (some ⟨inst.uniqueID, inst.name, inst.author, inst.version,
          inst.solverType, path, 0, ""⟩) := rfl

/-- A solver probe whose factories never throw a non-logic-error exception
never lets an exception escape from the solver-type loop. -/
theorem tryGetSolverLoop_no_escape (path : String) (p : SolverProbe)
    (h : ∀ i, p.factories i ≠ some (.throws false)) :
    ∀ L, ∃ r, tryGetSolverLoop path p L = .ok r := by
  intro L
  induction L with
  | nil => exact ⟨none, rfl⟩
  | cons i rest ih =>
    obtain ⟨r, hr⟩ := ih
    cases hf : p.factories i with
    | none => exact ⟨r, by rw [tryGetSolverLoop_cons, hf]; exact hr⟩
    | some o =>
      cases o with
      | throws b =>
        cases b
        · exact absurd hf (h i)
        · exact ⟨r, by rw [tryGetSolverLoop_cons, hf]; simpa using hr⟩
      | returns inst =>
        by_cases hv : inst.compilerVer = COMPILER_VERSION
        · by_cases ha : inst.accessorsThrow
          · exact ⟨r, by rw [tryGetSolverLoop_cons, hf]; simpa [hv, ha] using hr⟩
          · exact ⟨some ⟨inst.uniqueID, inst.name, inst.author, inst.version,
              inst.solverType, path, 0, ""⟩, by
                rw [tryGetSolverLoop_cons, hf]; simp [hv, ha]⟩
        · exact ⟨r, by rw [tryGetSolverLoop_cons, hf]; simpa [hv] using hr⟩

/-- Unfolding equation of `getAllModelsInDirE` on a nonempty file list. -/
theorem getAllModelsInDirE_cons (env : ProbeEnv) (f : String) (rest : List String) :
    getAllModelsInDirE env (f :: rest) =
      match env.loadLib f with
      | none => getAllModelsInDirE env rest
      | some lib =>
        match tryGetUnitDescriptor f (env.unitProbe lib) with
        | .error e => .error e
        | .ok (some u) =>
          match getAllModelsInDirE env rest with
          | .error e => .error e
          | .ok (us, ss) => .ok (u :: us, ss)
        | .ok none =>
          match tryGetSolverDescriptor f (env.solverProbe lib) with
          | .error e => .error e
          | .ok (some sd) =>
            match getAllModelsInDirE env rest with
            | .error e => .error e
            | .ok (us, ss) => .ok (us, sd :: ss)
          | .ok none => getAllModelsInDirE env rest := rfl

/-- If no plugin factory in the environment throws anything but
`std::logic_error`, the scan never lets an exception escape. -/
theorem getAllModelsInDirE_no_escape (env : ProbeEnv)
    (hU : ∀ lib, (env.unitProbe lib).outcome ≠ .throws false)
    (hS : ∀ lib i, (env.solverProbe lib).factories i ≠ some (.throws false)) :
    ∀ files, ∃ r, getAllModelsInDirE env files = .ok r := by
  intro files
  induction files with
  | nil => exact ⟨([], []), rfl⟩
  | cons f rest ih =>
    obtain ⟨⟨us, ss⟩, hr⟩ := ih
    cases hl : env.loadLib f with
    | none => exact ⟨(us, ss), by rw [getAllModelsInDirE_cons]; simp only [hl]; exact hr⟩
    | some lib =>
      obtain ⟨ru, hru⟩ := tryGetUnitDescriptor_no_escape f (env.unitProbe lib) (hU lib)
      cases ru with
      | some u =>
        exact ⟨(u :: us, ss), by
          rw [getAllModelsInDirE_cons]; simp only [hl, hru, hr]⟩
      | none =>
        obtain ⟨rs, hrs⟩ := tryGetSolverLoop_no_escape f (env.solverProbe lib)
          (hS lib) (List.range' 1 SOLVERS_TYPES_NUMBER)
        have hrs' : tryGetSolverDescriptor f (env.solverProbe lib) = Except.ok rs := hrs
        cases rs with
        | some sd =>
          exact ⟨(us, sd :: ss), by
            rw [getAllModelsInDirE_cons]; simp only [hl, hru, hrs', hr]⟩
        | none =>
          exact ⟨(us, ss), by
            rw [getAllModelsInDirE_cons]; simp only [hl, hru, hrs']; exact hr⟩

/-- C3 counterexample: the `try`/`catch` around the factory call in
`TryGetUnitDescriptor` (ModelsManager.cpp:284-290) catches only
`std::logic_error`, and likewise for solvers (line 335); a factory that
throws any other exception type makes the probe — and hence the whole
scan ran by `UpdateAvailableModels` — propagate the exception to the
caller, contradicting the claim that any exception raised by calling into
the plugin is caught inside the probe. -/
theorem C3_counterexample :
    tryGetUnitDescriptor "f" ⟨true, .throws false⟩ = .error () ∧
    tryGetSolverDescriptor "f" ⟨fun _ => some (.throws false)⟩ = .error () ∧
    getAllModelsInDirE c3Env ["f"] = .error () :=
  ⟨rfl, rfl, rfl⟩

/-- C3 (amended): during probing, a `std::logic_error` thrown by the
factory is caught (no descriptor), an exception thrown by the descriptor
accessors is caught (no descriptor), and as long as no factory throws an
exception other than `std::logic_error`, no exception escapes a probe or
the scan; a factory exception that is not a `std::logic_error` does
propagate (see the counterexample). -/
theorem C3_probe_exception_handling (path : String) (hasF : Bool)
    (p : UnitProbe) (q : SolverProbe) (env : ProbeEnv) (files : List String)
    (inst : PluginInstance)
    (hacc : inst.accessorsThrow = true)
    (hp : p.outcome ≠ .throws false)
    (hq : ∀ i, q.factories i ≠ some (.throws false))
    (hU : ∀ lib, (env.unitProbe lib).outcome ≠ .throws false)
    (hS : ∀ lib i, (env.solverProbe lib).factories i ≠ some (.throws false)) :
    tryGetUnitDescriptor path ⟨hasF, .throws true⟩ = .ok none ∧
    tryGetUnitDescriptor path ⟨hasF, .returns inst⟩ = .ok none ∧
    (∃ r, tryGetUnitDescriptor path p = .ok r) ∧
    (∃ r, tryGetSolverDescriptor path q = .ok r) ∧
    (∃ r, getAllModelsInDirE env files = .ok r) := by
  refine ⟨?_, ?_, tryGetUnitDescriptor_no_escape path p hp,
    tryGetSolverLoop_no_escape path q hq (List.range' 1 SOLVERS_TYPES_NUMBER),
    getAllModelsInDirE_no_escape env hU hS files⟩
  · cases hasF <;> rfl
  · cases hasF
    · rfl
    · by_cases hv : inst.compilerVer = COMPILER_VERSION
      · simp [tryGetUnitDescriptor, hv, hacc]
      · simp [tryGetUnitDescriptor, hv]

/-- Witness for C3 at concrete probes: a logic-error-throwing factory and
throwing accessors are caught, and a benign environment's scan returns
without an exception. -/
theorem C3_witness :
    tryGetUnitDescriptor "f" ⟨true, .throws true⟩ = .ok none ∧
    tryGetUnitDescriptor "f" ⟨true, .returns c3AccInst⟩ = .ok none ∧
    (∃ r, tryGetUnitDescriptor "f" ⟨true, .throws true⟩ = .ok r) ∧
    (∃ r, tryGetSolverDescriptor "f" ⟨fun _ => none⟩ = .ok r) ∧
    (∃ r, getAllModelsInDirE c3OkEnv ["g"] = .ok r) :=
  C3_probe_exception_handling "f" true ⟨true, .throws true⟩ ⟨fun _ => none⟩
    c3OkEnv ["g"] c3AccInst rfl (by decide) (fun i h => by simp at h)
    (fun lib h => by simp [c3OkEnv] at h) (fun lib i h => by simp [c3OkEnv] at h)

/-- A unit probe that constructs only version-mismatched instances (and
throws nothing worse than `std::logic_error`) yields no descriptor and no
exception. -/
theorem tryGetUnitDescriptor_mismatch_none (path : String) (p : UnitProbe)
    (h1 : p.outcome ≠ .throws false)
    (h2 : ∀ inst, p.outcome = .returns inst → inst.compilerVer ≠ COMPILER_VERSION) :
    tryGetUnitDescriptor path p = .ok none := by
  unfold tryGetUnitDescriptor
  cases hF : p.hasFactory
  · rfl
  · cases hout : p.outcome with
    | throws b =>
      cases b
      · exact absurd hout h1
      · rfl
    | returns inst =>
      simp [h2 inst hout]

/-- A solver probe that constructs only version-mismatched instances (and
throws nothing worse than `std::logic_error`) yields no descriptor and no
exception, whatever solver types are tried. -/
theorem tryGetSolverLoop_mismatch_none (path : String) (q : SolverProbe)
    (h1 : ∀ i, q.factories i ≠ some (.throws false))
    (h2 : ∀ i inst, q.factories i = some (.returns inst) →
      inst.compilerVer ≠ COMPILER_VERSION) :
    ∀ L, tryGetSolverLoop path q L = .ok none := by
  intro L
  induction L with
  | nil => rfl
  | cons i rest ih =>
    rw [tryGetSolverLoop_cons]
    cases hf : q.factories i with
    | none => exact ih
    | some o =>
      cases o with
      | throws b =>
        cases b
        · exact absurd hf (h1 i)
        · simpa using ih
      | returns inst =>
        simpa [h2 i inst hf] using ih

/-- A scan over libraries whose constructed instances all carry a
mismatched compiler version tag (and whose factories throw nothing worse
than `std::logic_error`) lists no models and raises no error. -/
theorem getAllModelsInDirE_mismatch_empty (env : ProbeEnv)
    (hU1 : ∀ lib inst, (env.unitProbe lib).outcome = .returns inst →
      inst.compilerVer ≠ COMPILER_VERSION)
    (hU2 : ∀ lib, (env.unitProbe lib).outcome ≠ .throws false)
    (hS1 : ∀ lib i inst, (env.solverProbe lib).factories i = some (.returns inst) →
      inst.compilerVer ≠ COMPILER_VERSION)
    (hS2 : ∀ lib i, (env.solverProbe lib).factories i ≠ some (.throws false)) :
    ∀ files, getAllModelsInDirE env files = .ok ([], []) := by
  intro files
  induction files with
  | nil => rfl
  | cons f rest ih =>
    rw [getAllModelsInDirE_cons]
    cases hl : env.loadLib f with
    | none => exact ih
    | some lib =>
      have hu : tryGetUnitDescriptor f (env.unitProbe lib) = .ok none :=
        tryGetUnitDescriptor_mismatch_none f (env.unitProbe lib) (hU2 lib) (hU1 lib)
      have hs : tryGetSolverDescriptor f (env.solverProbe lib) = .ok none :=
        tryGetSolverLoop_mismatch_none f (env.solverProbe lib) (hS2 lib) (hS1 lib)
          (List.range' 1 SOLVERS_TYPES_NUMBER)
      simp only [hu, hs]
      exact ih

/-- C7: a probed candidate whose constructed instance carries a
compiler/ABI version tag different from the host's `COMPILER_VERSION`
produces no descriptor — for units (ModelsManager.cpp:293-296), for every
solver type tried (ModelsManager.cpp:340-341), and at the scan level the
candidate is simply not listed while the scan completes without any
error. -/
theorem C7_version_gate (path : String) (hasF : Bool) (inst : PluginInstance)
    (q : SolverProbe) (env : ProbeEnv) (files : List String)
    (hv : inst.compilerVer ≠ COMPILER_VERSION)
    (hq1 : ∀ i inst2, q.factories i = some (.returns inst2) →
      inst2.compilerVer ≠ COMPILER_VERSION)
    (hq2 : ∀ i, q.factories i ≠ some (.throws false))
    (hU1 : ∀ lib inst2, (env.unitProbe lib).outcome = .returns inst2 →
      inst2.compilerVer ≠ COMPILER_VERSION)
    (hU2 : ∀ lib, (env.unitProbe lib).outcome ≠ .throws false)
    (hS1 : ∀ lib i inst2, (env.solverProbe lib).factories i = some (.returns inst2) →
      inst2.compilerVer ≠ COMPILER_VERSION)
    (hS2 : ∀ lib i, (env.solverProbe lib).factories i ≠ some (.throws false)) :
    tryGetUnitDescriptor path ⟨hasF, .returns inst⟩ = .ok none ∧
    tryGetSolverDescriptor path q = .ok none ∧
    getAllModelsInDirE env files = .ok ([], []) :=
  ⟨tryGetUnitDescriptor_mismatch_none path ⟨hasF, .returns inst⟩ (by simp)
      (fun inst2 h => by rw [← FactoryOutcome.returns.inj h]; exact hv),
   tryGetSolverLoop_mismatch_none path q hq2 hq1 (List.range' 1 SOLVERS_TYPES_NUMBER),
   getAllModelsInDirE_mismatch_empty env hU1 hU2 hS1 hS2 files⟩

/-- Witness for C7 at a concrete version-mismatched plugin: neither probe
produces a descriptor and the scan of its library lists nothing, without
an error. -/
theorem C7_witness :
    tryGetUnitDescriptor "f" ⟨true, .returns c7BadInst⟩ = .ok none ∧
    tryGetSolverDescriptor "f" ⟨fun _ => none⟩ = .ok none ∧
    getAllModelsInDirE c7Env ["f"] = .ok ([], []) :=
  C7_version_gate "f" true c7BadInst ⟨fun _ => none⟩ c7Env ["f"]
    (by decide)
    (fun i inst2 h => by simp at h)
    (fun i h => by simp at h)
    (fun lib inst2 h => by
      rw [← FactoryOutcome.returns.inj (show FactoryOutcome.returns c7BadInst =
        FactoryOutcome.returns inst2 from h)]
      decide)
    (fun lib h => by simp [c7Env] at h)
    (fun lib i inst2 h => by simp [c7Env] at h)
    (fun lib i h => by simp [c7Env] at h)

/-- Unfolding equation of `tdGetValue` with at least two points. -/
theorem tdGetValue_cons_cons (t0 v0 t1 v1 : ℚ) (rest : List (ℚ × ℚ)) (t : ℚ) :
    tdGetValue ((t0, v0) :: (t1, v1) :: rest) t =
      if t ≤ t0 then v0
      else if t ≤ t1 then v0 + (v1 - v0) * (t - t0) / (t1 - t0)
      else tdGetValue ((t1, v1) :: rest) t := rfl

/-- In a strictly time-sorted point list ending in `(tn, vn)`, every other
point's time is below `tn`. -/
theorem td_chain_lt_last (l : List (ℚ × ℚ)) (tn vn : ℚ)
    (h : List.Chain' (fun a b => a.1 < b.1) (l ++ [(tn, vn)])) :
    ∀ p ∈ l, p.1 < tn := by
  haveI : IsTrans (ℚ × ℚ) (fun a b => a.1 < b.1) := ⟨fun a b c => lt_trans⟩
  rw [List.chain'_iff_pairwise] at h
  intro p hp
  exact (List.pairwise_append.mp h).2.2 p hp (tn, vn) (List.mem_singleton.mpr rfl)

/-- Time monotonicity along indices of a strictly time-sorted point
list. -/
theorem td_chain_fst_le (l : List (ℚ × ℚ))
    (hch : List.Chain' (fun a b => a.1 < b.1) l) (i j : Nat) (p q : ℚ × ℚ)
    (hi : l.get? i = some p) (hj : l.get? j = some q) (hij : i ≤ j) :
    p.1 ≤ q.1 := by
  rcases Nat.lt_or_ge i j with hlt | hge
  · haveI : IsTrans (ℚ × ℚ) (fun a b => a.1 < b.1) := ⟨fun a b c => lt_trans⟩
    rw [List.chain'_iff_pairwise, List.pairwise_iff_get] at hch
    obtain ⟨hi', hpi⟩ := List.get?_eq_some.mp hi
    obtain ⟨hj', hqj⟩ := List.get?_eq_some.mp hj
    rw [← hpi, ← hqj]
    exact le_of_lt (hch ⟨i, hi'⟩ ⟨j, hj'⟩ hlt)
  · have hij' : i = j := le_antisymm hij hge
    subst hij'
    rw [hi] at hj
    rw [Option.some.inj hj]

/-- Clamp-left: at or before the first time point, the first value is
returned. -/
theorem tdGetValue_clamp_left (t0 v0 : ℚ) (pts : List (ℚ × ℚ)) (t : ℚ)
    (h : t ≤ t0) : tdGetValue ((t0, v0) :: pts) t = v0 := by
  cases pts with
  | nil => rfl
  | cons p rest =>
    obtain ⟨t1, v1⟩ := p
    rw [tdGetValue_cons_cons, if_pos h]

/-- Clamp-right: at or after the last time point of a strictly sorted
list, the last value is returned. -/
theorem tdGetValue_clamp_right : ∀ (pts : List (ℚ × ℚ)) (tn vn t : ℚ),
    List.Chain' (fun a b => a.1 < b.1) (pts ++ [(tn, vn)]) → tn ≤ t →
    tdGetValue (pts ++ [(tn, vn)]) t = vn := by
  intro pts
  induction pts with
  | nil => intro tn vn t _ _; rfl
  | cons p rest ih =>
    intro tn vn t hch ht
    obtain ⟨t0, v0⟩ := p
    have ht0n : t0 < tn :=
      td_chain_lt_last ((t0, v0) :: rest) tn vn hch (t0, v0)
        (List.mem_cons_self _ _)
    cases rest with
    | nil =>
      rw [show ((t0, v0) :: []) ++ [(tn, vn)] = (t0, v0) :: (tn, vn) :: [] from rfl,
        tdGetValue_cons_cons, if_neg (by linarith)]
      by_cases h1 : t ≤ tn
      · rw [if_pos h1]
        have hteq : t = tn := le_antisymm h1 ht
        have hne : tn - t0 ≠ 0 := by
          intro hc
          have : tn = t0 := by linarith
          rw [this] at ht0n
          exact lt_irrefl t0 ht0n
        rw [hteq]
        field_simp
      · rw [if_neg h1]
        rfl
    | cons p1 rest' =>
      obtain ⟨t1, v1⟩ := p1
      have ht1n : t1 < tn :=
        td_chain_lt_last ((t0, v0) :: (t1, v1) :: rest') tn vn hch (t1, v1)
          (List.mem_cons_of_mem _ (List.mem_cons_self _ _))
      rw [show ((t0, v0) :: (t1, v1) :: rest') ++ [(tn, vn)] =
        (t0, v0) :: (t1, v1) :: (rest' ++ [(tn, vn)]) from rfl,
        tdGetValue_cons_cons, if_neg (by linarith), if_neg (by linarith)]
      exact ih tn vn t (List.Chain'.tail hch) ht

/-- Bracketing: strictly between two adjacent time points, the value is
the linear interpolation between them. -/
theorem tdGetValue_bracket : ∀ (pts : List (ℚ × ℚ)) (i : Nat) (ta va tb vb t : ℚ),
    List.Chain' (fun a b => a.1 < b.1) pts →
    pts.get? i = some (ta, va) → pts.get? (i + 1) = some (tb, vb) →
    ta < t → t ≤ tb →
    tdGetValue pts t = va + (vb - va) * (t - ta) / (tb - ta) := by
  intro pts
  induction pts with
  | nil => intro i ta va tb vb t _ hi _ _ _; simp at hi
  | cons p rest ih =>
    intro i ta va tb vb t hch hi hi1 hta htb
    obtain ⟨t0, v0⟩ := p
    cases i with
    | zero =>
      have hp : (t0, v0) = (ta, va) := Option.some.inj hi
      injection hp with h1 h2
      subst h1
      subst h2
      cases rest with
      | nil => simp at hi1
      | cons p1 rest' =>
        have hp1 : p1 = (tb, vb) := Option.some.inj hi1
        subst hp1
        rw [tdGetValue_cons_cons, if_neg (not_le.mpr hta), if_pos htb]
    | succ i' =>
      cases rest with
      | nil => simp at hi1
      | cons p1 rest' =>
        obtain ⟨t1, v1⟩ := p1
        have ht1a : t1 ≤ ta :=
          td_chain_fst_le ((t1, v1) :: rest') (List.Chain'.tail hch) 0 i'
            (t1, v1) (ta, va) rfl hi (Nat.zero_le i')
        have ht01 : t0 < t1 := (List.chain'_cons.mp hch).1
        rw [tdGetValue_cons_cons, if_neg (by linarith), if_neg (by linarith)]
        exact ih i' ta va tb vb t (List.Chain'.tail hch) hi hi1 hta htb

/-- C8: `CTDUnitParameter::GetValue` returns 0 with no defined points,
clamps to the first value at or before the first time point and to the
last value at or after the last one, linearly interpolates between the two
bracketing points otherwise, and on the spec's example points
`{(0,1),(10,5)}` yields `GetValue(-5)=1`, `GetValue(5)=3`,
`GetValue(15)=5`. -/
theorem C8_td_getvalue :
    (∀ t : ℚ, tdGetValue [] t = 0) ∧
    (∀ (t0 v0 : ℚ) (pts : List (ℚ × ℚ)) (t : ℚ), t ≤ t0 →
      tdGetValue ((t0, v0) :: pts) t = v0) ∧
    (∀ (pts : List (ℚ × ℚ)) (tn vn t : ℚ),
      List.Chain' (fun a b => a.1 < b.1) (pts ++ [(tn, vn)]) → tn ≤ t →
      tdGetValue (pts ++ [(tn, vn)]) t = vn) ∧
    (∀ (pts : List (ℚ × ℚ)) (i : Nat) (ta va tb vb t : ℚ),
      List.Chain' (fun a b => a.1 < b.1) pts →
      pts.get? i = some (ta, va) → pts.get? (i + 1) = some (tb, vb) →
      ta < t → t ≤ tb →
      tdGetValue pts t = va + (vb - va) * (t - ta) / (tb - ta)) ∧
    tdGetValue [(0, 1), (10, 5)] (-5) = 1 ∧
    tdGetValue [(0, 1), (10, 5)] 5 = 3 ∧
    tdGetValue [(0, 1), (10, 5)] 15 = 5 := by
  refine ⟨fun t => rfl, tdGetValue_clamp_left, tdGetValue_clamp_right,
    tdGetValue_bracket, ?_, ?_, ?_⟩
  · rw [tdGetValue_cons_cons, if_pos (by norm_num)]
  · rw [tdGetValue_cons_cons, if_neg (by norm_num), if_pos (by norm_num)]
    norm_num
  · rw [tdGetValue_cons_cons, if_neg (by norm_num), if_neg (by norm_num)]
    rfl

/-- Witness for C8 at the spec's example and concrete clamp inputs. -/
theorem C8_witness :
    tdGetValue [] 7 = 0 ∧
    tdGetValue [(0, 1), (10, 5)] (-5) = 1 ∧
    tdGetValue [(0, 1), (10, 5)] 5 = 3 ∧
    tdGetValue [(0, 1), (10, 5)] 15 = 5 ∧
    tdGetValue ([(0, 1)] ++ [(10, 5)]) 15 = 5 ∧
    tdGetValue [(0, 1), (10, 5)] 5 = 1 + (5 - 1) * (5 - 0) / (10 - 0) :=
  ⟨C8_td_getvalue.1 7,
   C8_td_getvalue.2.2.2.2.1,
   C8_td_getvalue.2.2.2.2.2.1,
   C8_td_getvalue.2.2.2.2.2.2,
   C8_td_getvalue.2.2.1 [(0, 1)] 10 5 15
     (List.chain'_pair.mpr (by norm_num)) (by norm_num),
   C8_td_getvalue.2.2.2.1 [(0, 1), (10, 5)] 0 0 1 10 5 5
     (List.chain'_pair.mpr (by norm_num)) rfl rfl (by norm_num) (by norm_num)⟩

/-- Decoding inverts encoding for every parameter kind. -/
theorem decodeParam_encodeParam (p : UParam) : decodeParam (encodeParam p) = p := by
  cases p with
  | td n u d mn mx pts =>
    simp only [encodeParam, decodeParam]
    rw [show (pts.map Prod.fst).zip (pts.map Prod.snd) = pts from
      (List.zip_of_prod rfl rfl).symm]
    rfl
  | combo n d items selected =>
    simp only [encodeParam, decodeParam]
    rw [show (items.map Prod.fst).zip (items.map Prod.snd) = items from
      (List.zip_of_prod rfl rfl).symm]
  | group n d items selected =>
    simp only [encodeParam, decodeParam]
    rw [show (items.map Prod.fst).zip (items.map Prod.snd) = items from
      (List.zip_of_prod rfl rfl).symm]
  | const n u d mn mx v => rfl
  | str n d v => rfl
  | checkbox n d b => rfl
  | solver n d key stype => rfl
  | compound n d key => rfl

/-- C9: loading a saved registry reproduces it — the whole state is equal,
hence every observable getter (parameter count, values, bounds,
selections, the group map and `IsParameterActive`) agrees between
`Load(Save(R))` and `R`. -/
theorem C9_save_load_roundtrip (R : CUnitParametersManager) :
    loadFromFile (saveToFile R) = R ∧
    ParametersNumber (loadFromFile (saveToFile R)) = ParametersNumber R ∧
    (∀ i, IsParameterActive (loadFromFile (saveToFile R)) i =
      IsParameterActive R i) := by
  have h : loadFromFile (saveToFile R) = R := by
    unfold loadFromFile saveToFile
    cases R with
    | mk ps gs =>
      simp only [List.map_map]
      congr 1
      rw [show decodeParam ∘ encodeParam = id from funext fun p => by
        simp [decodeParam_encodeParam p]]
      exact List.map_id ps
  exact ⟨h, by rw [h], fun i => by rw [h]⟩

/-- Witness for C9 at a concrete registry containing one parameter of
each kind plus a group-map entry. -/
theorem C9_witness :
    loadFromFile (saveToFile ⟨[
      .const "c" "kg" "dc" 0 10 5,
      .td "t" "s" "dt" 0 10 [(0, 1), (10, 5)],
      .str "s" "ds" "x",
      .checkbox "b" "db" true,
      .solver "v" "dv" "key" 2,
      .combo "m" "dm" [(1, "one"), (2, "two")] 1,
      .group "g" "dg" [(3, "three")] 3,
      .compound "p" "dp" "cmp"], [(0, 6, 3)]⟩) =
      ⟨[
      .const "c" "kg" "dc" 0 10 5,
      .td "t" "s" "dt" 0 10 [(0, 1), (10, 5)],
      .str "s" "ds" "x",
      .checkbox "b" "db" true,
      .solver "v" "dv" "key" 2,
      .combo "m" "dm" [(1, "one"), (2, "two")] 1,
      .group "g" "dg" [(3, "three")] 3,
      .compound "p" "dp" "cmp"], [(0, 6, 3)]⟩ :=
  (C9_save_load_roundtrip ⟨[
      .const "c" "kg" "dc" 0 10 5,
      .td "t" "s" "dt" 0 10 [(0, 1), (10, 5)],
      .str "s" "ds" "x",
      .checkbox "b" "db" true,
      .solver "v" "dv" "key" 2,
      .combo "m" "dm" [(1, "one"), (2, "two")] 1,
      .group "g" "dg" [(3, "three")] 3,
      .compound "p" "dp" "cmp"], [(0, 6, 3)]⟩).1

/-- C1 counterexample: two available unit descriptors match the key `k`;
the first one's library fails to load and the second would instantiate
successfully (as the second conjunct shows), yet `InstantiateUnit`
(ModelsManager.cpp:107 `if (!hLibrary) return nullptr;`) returns null
without trying the second descriptor — so the call can return not-found
even though a matching descriptor succeeds, contradicting the claim that
every failure continues the search.  The solver path
(ModelsManager.cpp:137) behaves identically. -/
theorem C1_counterexample :
    (instantiateUnit c1Env [] "k" [c1UnitA, c1UnitB]).inst = none ∧
    (instantiateUnit c1Env [] "k" [c1UnitB]).inst = some 42 ∧
    (instantiateUnit c1Env [] "k" [c1UnitB]).loaded = [(42, 7)] ∧
    (instantiateSolver c1Env [] "k" [c1SolvA, c1SolvB]).inst = none ∧
    (instantiateSolver c1Env [] "k" [c1SolvB]).inst = some 43 :=
  ⟨rfl, rfl, rfl, rfl, rfl⟩

/-- C1 (amended): for `InstantiateUnit`/`InstantiateSolver`, a missing
factory symbol or a construction that returns nothing unloads the handle
opened for that attempt and continues searching the remaining matching
descriptors, and every handle opened during a failed attempt is closed;
but a library-load failure on a matching descriptor makes the whole call
return not-found immediately (it does NOT continue searching); an unknown
key returns not-found with no new (instance, library-handle) mapping
recorded; a successful call retains exactly the one handle recorded with
the new instance. -/
theorem C1_instantiate_partial_failure (env : InstEnv) (loaded : List (Nat × Nat))
    (key : String) (units : List SUnitDescriptor) (solvers : List SSolverDescriptor)
    (u : SUnitDescriptor) (restU : List SUnitDescriptor)
    (s : SSolverDescriptor) (restS : List SSolverDescriptor) :
    ((∀ v ∈ units, v.uniqueID ≠ key) →
      instantiateUnit env loaded key units = ⟨none, loaded, [], []⟩) ∧
    ((instantiateUnit env loaded key units).inst = none →
      (instantiateUnit env loaded key units).closed =
        (instantiateUnit env loaded key units).opened ∧
      (instantiateUnit env loaded key units).loaded = loaded) ∧
    (∀ p, (instantiateUnit env loaded key units).inst = some p →
      ∃ hh, (instantiateUnit env loaded key units).opened =
          (instantiateUnit env loaded key units).closed ++ [hh] ∧
        (instantiateUnit env loaded key units).loaded = (p, hh) :: loaded) ∧
    (u.uniqueID = key → env.loadLib u.fileLocation = none →
      instantiateUnit env loaded key (u :: restU) = ⟨none, loaded, [], []⟩) ∧
    (∀ hh, u.uniqueID = key → env.loadLib u.fileLocation = some hh →
      (env.getUnitFactory hh = false ∨ env.callUnitFactory hh = none) →
      instantiateUnit env loaded key (u :: restU) =
        ⟨(instantiateUnit env loaded key restU).inst,
         (instantiateUnit env loaded key restU).loaded,
         hh :: (instantiateUnit env loaded key restU).opened,
         hh :: (instantiateUnit env loaded key restU).closed⟩) ∧
    ((∀ v ∈ solvers, v.uniqueID ≠ key) →
      instantiateSolver env loaded key solvers = ⟨none, loaded, [], []⟩) ∧
    ((instantiateSolver env loaded key solvers).inst = none →
      (instantiateSolver env loaded key solvers).closed =
        (instantiateSolver env loaded key solvers).opened ∧
      (instantiateSolver env loaded key solvers).loaded = loaded) ∧
    (∀ p, (instantiateSolver env loaded key solvers).inst = some p →
      ∃ hh, (instantiateSolver env loaded key solvers).opened =
          (instantiateSolver env loaded key solvers).closed ++ [hh] ∧
        (instantiateSolver env loaded key solvers).loaded = (p, hh) :: loaded) ∧
    (s.uniqueID = key → env.loadLib s.fileLocation = none →
      instantiateSolver env loaded key (s :: restS) = ⟨none, loaded, [], []⟩) ∧
    (∀ hh, s.uniqueID = key → env.loadLib s.fileLocation = some hh →
      (env.getSolverFactory hh s.solverType = false ∨
        env.callSolverFactory hh s.solverType = none) →
      instantiateSolver env loaded key (s :: restS) =
        ⟨(instantiateSolver env loaded key restS).inst,
         (instantiateSolver env loaded key restS).loaded,
         hh :: (instantiateSolver env loaded key restS).opened,
         hh :: (instantiateSolver env loaded key restS).closed⟩) := by
  refine ⟨instantiateUnit_unknown_key env loaded key units,
    (instantiateUnit_handles env loaded key units).1,
    (instantiateUnit_handles env loaded key units).2, ?_, ?_,
    instantiateSolver_unknown_key env loaded key solvers,
    (instantiateSolver_handles env loaded key solvers).1,
    (instantiateSolver_handles env loaded key solvers).2, ?_, ?_⟩
  · intro hk hnone
    simp only [instantiateUnit, if_pos hk, hnone]
  · intro hh hk hsome hfail
    rcases hfail with hFf | hCn
    · simp only [instantiateUnit, if_pos hk, hsome, hFf, Bool.false_eq_true, if_false]
    · by_cases hF : env.getUnitFactory hh
      · simp only [instantiateUnit, if_pos hk, hsome, if_pos hF, hCn]
      · simp only [instantiateUnit, if_pos hk, hsome, if_neg hF]
  · intro hk hnone
    simp only [instantiateSolver, if_pos hk, hnone]
  · intro hh hk hsome hfail
    rcases hfail with hFf | hCn
    · simp only [instantiateSolver, if_pos hk, hsome, hFf, Bool.false_eq_true, if_false]
    · by_cases hF : env.getSolverFactory hh s.solverType
      · simp only [instantiateSolver, if_pos hk, hsome, if_pos hF, hCn]
      · simp only [instantiateSolver, if_pos hk, hsome, if_neg hF]

/-- Witness for C1, applying the amended theorem at two concrete
environments: `c1Env` for the unknown-key, empty-list and load-failure
cases, and `c1EnvF` for the symbol-missing continue case. -/
theorem C1_witness :
    instantiateUnit c1Env [] "k" [] = ⟨none, [], [], []⟩ ∧
    ((instantiateUnit c1Env [] "k" []).closed =
        (instantiateUnit c1Env [] "k" []).opened ∧
      (instantiateUnit c1Env [] "k" []).loaded = []) ∧
    instantiateUnit c1Env [] "k" (c1UnitA :: []) = ⟨none, [], [], []⟩ ∧
    instantiateSolver c1Env [] "k" (c1SolvA :: []) = ⟨none, [], [], []⟩ ∧
    instantiateUnit c1EnvF [] "k" (c1UnitB :: []) =
      ⟨(instantiateUnit c1EnvF [] "k" []).inst,
       (instantiateUnit c1EnvF [] "k" []).loaded,
       5 :: (instantiateUnit c1EnvF [] "k" []).opened,
       5 :: (instantiateUnit c1EnvF [] "k" []).closed⟩ ∧
    instantiateSolver c1EnvF [] "k" (c1SolvB :: []) =
      ⟨(instantiateSolver c1EnvF [] "k" []).inst,
       (instantiateSolver c1EnvF [] "k" []).loaded,
       5 :: (instantiateSolver c1EnvF [] "k" []).opened,
       5 :: (instantiateSolver c1EnvF [] "k" []).closed⟩ :=
  ⟨(C1_instantiate_partial_failure c1Env [] "k" [] [] c1UnitA [] c1SolvA []).1
      (fun v hv => absurd hv (List.not_mem_nil v)),
   (C1_instantiate_partial_failure c1Env [] "k" [] [] c1UnitA [] c1SolvA []).2.1 rfl,
   (C1_instantiate_partial_failure c1Env [] "k" [] [] c1UnitA [] c1SolvA []).2.2.2.1
      rfl rfl,
   (C1_instantiate_partial_failure c1Env [] "k" [] [] c1UnitA [] c1SolvA []).2.2.2.2.2.2.2.2.1
      rfl rfl,
   (C1_instantiate_partial_failure c1EnvF [] "k" [] [] c1UnitB [] c1SolvB []).2.2.2.2.1
      5 rfl rfl (Or.inl rfl),
   (C1_instantiate_partial_failure c1EnvF [] "k" [] [] c1UnitB [] c1SolvB []).2.2.2.2.2.2.2.2.2
      5 rfl rfl (Or.inl rfl)⟩

/-- After erasing the unique entry for key `q`, a lookup of `q` fails. -/
theorem lookupLoaded_eraseLoaded_self (loaded : List (Nat × Nat)) (q : Nat)
    (hnd : (loaded.map Prod.fst).Nodup) :
    lookupLoaded (eraseLoaded loaded q) q = none := by
  induction loaded with
  | nil => rfl
  | cons a t ih =>
    simp only [List.map_cons, List.nodup_cons] at hnd
    obtain ⟨ha, ht⟩ := hnd
    by_cases h : a.1 = q
    · unfold eraseLoaded
      rw [List.eraseP_cons_of_pos (by simp [h])]
      unfold lookupLoaded
      rw [List.find?_eq_none.mpr]
      · rfl
      · intro x hx
        simp only [beq_iff_eq]
        intro hxq
        apply ha
        rw [h, ← hxq]
        exact List.mem_map_of_mem Prod.fst hx
    · unfold eraseLoaded
      rw [List.eraseP_cons_of_neg (by simp [h])]
      unfold lookupLoaded
      rw [List.find?_cons_of_neg _ (by simp [h])]
      exact ih ht

/-- C6: `FreeUnit`/`FreeSolver` are no-ops (state unchanged, no effects)
on a null pointer or an unknown pointer; on a known pointer they remove
the mapping entry and perform exactly the instance destruction followed by
the library unload, in that order, and a second free of the same pointer
is then a no-op. -/
theorem C6_free_lifecycle (loadedU loadedS : List (Nat × Nat)) (q hU hS : Nat)
    (hndU : (loadedU.map Prod.fst).Nodup)
    (hndS : (loadedS.map Prod.fst).Nodup) :
    (freeUnit loadedU none = (loadedU, []) ∧
      (lookupLoaded loadedU q = none → freeUnit loadedU (some q) = (loadedU, [])) ∧
      (lookupLoaded loadedU q = some hU →
        freeUnit loadedU (some q) =
          (eraseLoaded loadedU q, [FreeAction.destroy q, FreeAction.unload hU]) ∧
        freeUnit (eraseLoaded loadedU q) (some q) = (eraseLoaded loadedU q, []))) ∧
    (freeSolver loadedS none = (loadedS, []) ∧
      (lookupLoaded loadedS q = none → freeSolver loadedS (some q) = (loadedS, [])) ∧
      (lookupLoaded loadedS q = some hS →
        freeSolver loadedS (some q) =
          (eraseLoaded loadedS q, [FreeAction.destroy q, FreeAction.unload hS]) ∧
        freeSolver (eraseLoaded loadedS q) (some q) = (eraseLoaded loadedS q, []))) := by
  refine ⟨⟨rfl, ?_, ?_⟩, ⟨rfl, ?_, ?_⟩⟩
  · intro hnone; simp only [freeUnit, hnone]
  · intro hsome
    refine ⟨by simp only [freeUnit, hsome], ?_⟩
    simp only [freeUnit, lookupLoaded_eraseLoaded_self loadedU q hndU]
  · intro hnone; simp only [freeSolver, hnone]
  · intro hsome
    refine ⟨by simp only [freeSolver, hsome], ?_⟩
    simp only [freeSolver, lookupLoaded_eraseLoaded_self loadedS q hndS]

/-- Witness for C6 at the concrete unit map `[(1, 10)]`, solver map
`[(1, 20)]` and pointer `1`. -/
theorem C6_witness :
    (freeUnit [(1, 10)] none = ([(1, 10)], []) ∧
      (lookupLoaded [(1, 10)] 1 = none → freeUnit [(1, 10)] (some 1) = ([(1, 10)], [])) ∧
      (lookupLoaded [(1, 10)] 1 = some 10 →
        freeUnit [(1, 10)] (some 1) =
          (eraseLoaded [(1, 10)] 1, [FreeAction.destroy 1, FreeAction.unload 10]) ∧
        freeUnit (eraseLoaded [(1, 10)] 1) (some 1) = (eraseLoaded [(1, 10)] 1, []))) ∧
    (freeSolver [(1, 20)] none = ([(1, 20)], []) ∧
      (lookupLoaded [(1, 20)] 1 = none → freeSolver [(1, 20)] (some 1) = ([(1, 20)], [])) ∧
      (lookupLoaded [(1, 20)] 1 = some 20 →
        freeSolver [(1, 20)] (some 1) =
          (eraseLoaded [(1, 20)] 1, [FreeAction.destroy 1, FreeAction.unload 20]) ∧
        freeSolver (eraseLoaded [(1, 20)] 1) (some 1) = (eraseLoaded [(1, 20)] 1, []))) :=
  C6_free_lifecycle [(1, 10)] [(1, 20)] 1 10 20 (by decide) (by decide)

/-- C4: for a valid directory index `i` and flag `a`, the flag update of
`SetDirActivity(i, a)` (ModelsManager.cpp:60-66) leaves the entry's
`checked` flag `false` exactly when the directory transitioned from
inactive to active (previous `active` false and `a` true); in every other
case `checked` is `true` afterwards, and the subsequent
`UpdateAvailableModels` call re-scans the directory (`willRescan`) exactly
in that inactive-to-active case. -/
theorem C4_setDirActivity_checked (dirs : List SModelDir) (i : Nat) (a : Bool)
    (d : SModelDir) (h : dirs.get? i = some d) :
    ∃ d', (setDirActivityFlags dirs i a).get? i = some d' ∧
      d'.active = a ∧
      (d'.checked = false ↔ (d.active = false ∧ a = true)) ∧
      (willRescan d' = true ↔ (d.active = false ∧ a = true)) := by
  obtain ⟨hlt, -⟩ := List.get?_eq_some.mp h
  refine ⟨{ d with checked := d.active || !a, active := a }, ?_, rfl, ?_, ?_⟩
  · unfold setDirActivityFlags
    rw [h]
    exact List.get?_set_eq_of_lt _ hlt
  · cases hA : d.active <;> cases a <;> simp [hA]
  · cases hA : d.active <;> cases a <;> simp [willRescan, hA]

/-- Witness for C4 at the concrete directory list
`[⟨"p", "k", false, true⟩]`, index 0, activation `true`. -/
theorem C4_witness :
    ∃ d', (setDirActivityFlags [⟨"p", "k", false, true⟩] 0 true).get? 0 = some d' ∧
      d'.active = true ∧
      (d'.checked = false ↔
        ((SModelDir.mk "p" "k" false true).active = false ∧ (true : Bool) = true)) ∧
      (willRescan d' = true ↔
        ((SModelDir.mk "p" "k" false true).active = false ∧ (true : Bool) = true)) :=
  C4_setDirActivity_checked [⟨"p", "k", false, true⟩] 0 true ⟨"p", "k", false, true⟩ rfl

/-- C10: `AddDir` called with a path already present in the directory list
(ModelsManager.cpp:19-20) returns `false` and leaves the directory list
and both descriptor caches unchanged. -/
theorem C10_addDir_duplicate (env : ScanEnv) (keyGen : List String → String)
    (s : ManagerState) (path : String) (active r : Bool) (s' : ManagerState)
    (hdup : s.dirsList.any (fun d => d.path == path) = true)
    (h : AddDirOutcome env keyGen s path active r s') :
    r = false ∧ s'.dirsList = s.dirsList ∧
      s'.availableUnits = s.availableUnits ∧
      s'.availableSolvers = s.availableSolvers := by
  unfold AddDirOutcome at h
  rw [if_pos hdup] at h
  obtain ⟨hr, hs⟩ := h
  exact ⟨hr, by rw [hs], by rw [hs], by rw [hs]⟩

/-- Witness for C10 at a concrete one-directory state and its own path. -/
theorem C10_witness :
    (false : Bool) = false ∧
      (ManagerState.mk [⟨"p", "k", true, true⟩] [] []).dirsList =
        (ManagerState.mk [⟨"p", "k", true, true⟩] [] []).dirsList ∧
      (ManagerState.mk [⟨"p", "k", true, true⟩] [] []).availableUnits =
        (ManagerState.mk [⟨"p", "k", true, true⟩] [] []).availableUnits ∧
      (ManagerState.mk [⟨"p", "k", true, true⟩] [] []).availableSolvers =
        (ManagerState.mk [⟨"p", "k", true, true⟩] [] []).availableSolvers :=
  C10_addDir_duplicate (fun _ => ([], [])) (fun _ => "")
    ⟨[⟨"p", "k", true, true⟩], [], []⟩ "p" true false
    ⟨[⟨"p", "k", true, true⟩], [], []⟩ (by decide)
    (by unfold AddDirOutcome; rw [if_pos (by decide)]; exact ⟨rfl, rfl⟩)

end Dyssol
